import Mathlib

/-!
Diff verifier of `internal/applier/verifier.go`.

A shallow embedding of `VerifyDiff` and `verifyTable`.  The packages `tengo`,
`fs` and `workspace` are outside the verified file, so every call into them is
a field of `Env`; the Go maps are association lists with unique keys, pointers
to table diffs are positions in `SchemaDiff.TableDiffs`, and the effects of a
run (blueprint submissions, workspace executions, second diffs, calls of
`MarkSupported`) are returned as traces in `Outcome`.
-/

set_option autoImplicit false

namespace Applier

/-! ## Data model -/

/-- Modelled from the spec: `tengo.Flavor`, a vendor and version pair. -/
structure Flavor where
  Vendor : String
  Major : Nat
  Minor : Nat
deriving DecidableEq, Repr

/-- Modelled from the spec: the constant `tengo.FlavorMySQL55`. -/
def FlavorMySQL55 : Flavor := { Vendor := "mysql", Major := 5, Minor := 5 }

/-- Modelled from the spec: the values of `next_auto_inc`. -/
inductive NextAutoIncMode where
  | NextAutoIncNever
  | NextAutoIncIfIncreased
  | NextAutoIncAlways
deriving DecidableEq, Repr

/-- Modelled from the spec: the values of `partitioning`. -/
inductive PartitioningMode where
  | PartitioningPermissive
  | PartitioningStrict
deriving DecidableEq, Repr

/-- Modelled from the spec: `tengo.StatementModifiers`, with the options the
spec lists. -/
structure StatementModifiers where
  NextAutoInc : NextAutoIncMode
  Partitioning : PartitioningMode
  AllowUnsafe : Bool
  AlgorithmClause : String
  StrictIndexOrder : Bool
  StrictCheckOrder : Bool
  StrictForeignKeyNaming : Bool
  StrictColumnDefinition : Bool
  SkipPreDropAlters : Bool
  Flavor : Flavor
deriving DecidableEq, Repr

/-- Modelled from the spec: `tengo.Table`; the verifier reads the name and the
raw CREATE statement only. -/
structure Table where
  Name : String
  CreateStatement : String
deriving DecidableEq, Repr

/-- Modelled from the spec: the kind of a table diff. -/
inductive DiffType where
  | DiffTypeCreate
  | DiffTypeAlter
  | DiffTypeDrop
deriving DecidableEq, Repr

/-- Modelled from the spec: `tengo.TableDiff`, a triple of kind, `From` and `To`
with the ordered sub-clauses and the mutable `supported` flag.  The verifier
reads `From` and `To` of alter-kind diffs only, where both are present. -/
structure TableDiff where
  Typ : DiffType
  From : Table
  To : Table
  alterClauses : List String
  supported : Bool
deriving DecidableEq, Repr

/-- Modelled from the spec: `tengo.SchemaDiff`, of which the verifier reads the
table diffs. -/
structure SchemaDiff where
  TableDiffs : List TableDiff
deriving DecidableEq, Repr

/-- Modelled from the spec: `tengo.UnsupportedDiffError` with its three
descriptors. -/
structure UnsupportedDiffError where
  Reason : String
  ExpectedDesc : String
  ActualDesc : String
deriving DecidableEq, Repr

/-- Go `error` values as the verifier can observe them: a plain error with a
message, a `*tengo.UnsupportedDiffError`, or an error wrapping another one
(`*fmt.wrapError`). -/
inductive GoError where
  | errorString (msg : String)
  | unsupportedDiff (e : UnsupportedDiffError)
  | wrapError (msg : String) (err : GoError)
deriving DecidableEq, Repr

/-- Modelled from the spec: the kind of a blueprint statement. -/
inductive StatementType where
  | StatementTypeCreate
  | StatementTypeAlter
  | StatementTypeUse
  | StatementTypeOther
deriving DecidableEq, Repr

/-- Modelled from the spec: object types of blueprint statements. -/
inductive ObjectType where
  | ObjectTypeTable
  | ObjectTypeOther
deriving DecidableEq, Repr

/-- Modelled from the spec: `tengo.Statement` as `(kind, object_type,
object_name, text)`. -/
structure Statement where
  Typ : StatementType
  Text : String
  ObjectType : ObjectType
  ObjectName : String
deriving DecidableEq, Repr

/-- Modelled from the spec: `fs.LogicalSchema`, the ordered blueprint with its
default character set and collation. -/
structure LogicalSchema where
  CharSet : String
  Collation : String
  Statements : List Statement
deriving DecidableEq, Repr

/-- Modelled from the spec: `workspace.Options`, which the verifier passes
through unread. -/
structure WorkspaceOptions where
  descr : String
deriving DecidableEq, Repr

/-- Modelled from the spec: `workspace.Schema`, the failures of the execution in
submission order and the introspected tables by name. -/
structure WsSchema where
  Failures : List GoError
  TablesByName : String → Option Table

/-- The `VerifierOptions` struct of verifier.go. -/
structure VerifierOptions where
  AllAlters : Bool
  Flavor : Flavor
  DefaultCharacterSet : String
  DefaultCollation : String
  WorkspaceOptions : WorkspaceOptions
deriving DecidableEq, Repr

/-- An operand of a formatting call: a string or an error value. -/
inductive FmtArg where
  | str (s : String)
  | err (e : GoError)
deriving DecidableEq, Repr

/-- The calls out of verifier.go whose code is not part of the file, and the
choices Go leaves open.
* `Matches` is `Flavor.Matches`;
* `Statement` is `(*TableDiff).Statement`, on a possibly nil receiver;
* `NewAlterTable` is `tengo.NewAlterTable`;
* `ExecLogicalSchema` is `workspace.ExecLogicalSchema`, returning the schema and
  the error;
* `ExtendedError` and `ErrorText` are the methods `ExtendedError()` and
  `Error()` of `*tengo.UnsupportedDiffError`;
* `fmtOther` is what package `fmt` prints, and which error it wraps, from a
  formatting directive on that `doPrintf` below does not interpret;
* `mapOrder` drives the iteration order of `range` over a map. -/
structure Env where
  Matches : Flavor → Flavor → Bool
  Statement : Option TableDiff → StatementModifiers → String × Option GoError
  NewAlterTable : Option Table → Option Table → Option TableDiff
  ExecLogicalSchema : LogicalSchema → WorkspaceOptions → WsSchema × Option GoError
  ExtendedError : UnsupportedDiffError → String
  ErrorText : UnsupportedDiffError → String
  fmtOther : List Char → List FmtArg → List Char × Option GoError
  mapOrder : List Nat

/-! ## Errors, formatting and string replacement -/

/-- The method `Error()` of an error value. -/
def GoError.Error (env : Env) : GoError → String
  | .errorString msg => msg
  | .unsupportedDiff e => env.ErrorText e
  | .wrapError msg _ => msg

/-- The first `*tengo.UnsupportedDiffError` in the chain of an error. -/
def GoError.asUnsupported : GoError → Option UnsupportedDiffError
  | .errorString _ => none
  | .unsupportedDiff e => some e
  | .wrapError _ err => err.asUnsupported

/-- The call `errors.As(err, &unsupportedErr)` for a target of type
`*tengo.UnsupportedDiffError`; it fails on a nil error. -/
def errorsAs : Option GoError → Option UnsupportedDiffError
  | none => none
  | some e => e.asUnsupported

/-- Modelled from the spec: `tengo.IsUnsupportedDiff`, the dedicated predicate
recognising an unsupported-diff error. -/
def IsUnsupportedDiff (err : Option GoError) : Bool :=
  (errorsAs err).isSome

/-- The text `%s`, `%v` or `%w` prints for an operand. -/
def FmtArg.text (env : Env) : FmtArg → List Char
  | .str s => s.data
  | .err e => (e.Error env).data

/-- The formatting loop of package `fmt` as `fmt.Errorf` runs it, on the
directives verifier.go uses: text up to a `%` is copied, `%%` prints a percent
sign, `%s` and `%v` print the next operand, `%w` prints the next operand when
it is an error and records it as wrapped.  From any other directive on (flags,
width, another verb, a missing or a surplus operand) the output is
`env.fmtOther`. The result is the text and the wrapped error. -/
def doPrintf (env : Env) : List Char → List FmtArg → List Char × Option GoError
  | [], args =>
    match args with
    | [] => ([], none)
    | _ :: _ => env.fmtOther [] args
  | c :: rest, args =>
    if c ≠ '%' then
      let r := doPrintf env rest args
      (c :: r.1, r.2)
    else
      match rest with
      | [] => env.fmtOther (c :: rest) args
      | v :: rest2 =>
        if v = '%' then
          let r := doPrintf env rest2 args
          ('%' :: r.1, r.2)
        else
          match args with
          | [] => env.fmtOther (c :: rest) args
          | a :: as =>
            if v = 's' ∨ v = 'v' then
              let r := doPrintf env rest2 as
              (a.text env ++ r.1, r.2)
            else if v = 'w' then
              match a with
              | .err e =>
                let r := doPrintf env rest2 as
                (a.text env ++ r.1, some e)
              | .str _ => env.fmtOther (c :: rest) args
            else env.fmtOther (c :: rest) args

/-- The call `fmt.Errorf(format, args...)`: an error with the formatted message,
wrapping the operand of `%w` if there is one. -/
def Errorf (env : Env) (format : String) (args : List FmtArg) : GoError :=
  let r := doPrintf env format.data args
  match r.2 with
  | some e => .wrapError (String.mk r.1) e
  | none => .errorString (String.mk r.1)

/-- Whether `p` is an initial segment of the list. -/
def startsWith : List Char → List Char → Bool
  | [], _ => true
  | _ :: _, [] => false
  | a :: p, b :: s => a == b && startsWith p s

/-- The call `strings.Replace(s, old, new, 1)` on character lists: the first
occurrence of `old` is replaced by `new`. -/
def replaceFirst (old new : List Char) : List Char → List Char
  | [] => if old = [] then new else []
  | c :: cs =>
    if startsWith old (c :: cs) then new ++ (c :: cs).drop old.length
    else c :: replaceFirst old new cs

/-- The call `strings.Replace(s, old, new, 1)`. -/
def stringsReplace1 (s old new : String) : String :=
  String.mk (replaceFirst old.data new.data s.data)

/-! ## Go maps with string keys -/

/-- The lookup `m[key]` with its presence flag. -/
def mapGet {β : Type} : List (String × β) → String → Option β
  | [], _ => none
  | (k, v) :: m, key => if k = key then some v else mapGet m key

/-- The assignment `m[key] = val`: the entry of an existing key is overwritten. -/
def mapSet {β : Type} : List (String × β) → String → β → List (String × β)
  | [], key, val => [(key, val)]
  | (k, v) :: m, key, val =>
    if k = key then (k, val) :: m else (k, v) :: mapSet m key val

/-- Takes the element at position `i` out of the non-empty list `x :: xs` (the
last one when `i` is too large) and returns it with the remaining elements. -/
def pickAt {α : Type} : Nat → α → List α → α × List α
  | 0, x, xs => (x, xs)
  | _ + 1, x, [] => (x, [])
  | i + 1, x, y :: ys =>
    let r := pickAt i y ys
    (r.1, x :: r.2)

/-- The order in which `range` visits the entries of a map: Go leaves it
unspecified, so it is chosen by `seed`, one pick per entry. -/
def rangeOrder {α : Type} : List Nat → List α → List α
  | _, [] => []
  | [], x :: xs => x :: xs
  | k :: ks, x :: xs =>
    let r := pickAt (k % (xs.length + 1)) x xs
    r.1 :: rangeOrder ks r.2

/-! ## The verifier -/

/-- Modelled from the spec: `SchemaDiff.FilteredTableDiffs`, the table diffs of
one kind in their order, each with its position in `TableDiffs` (the pointer). -/
def filterFrom (typ : DiffType) : Nat → List TableDiff → List (Nat × TableDiff)
  | _, [] => []
  | i, td :: tds =>
    if td.Typ = typ then (i, td) :: filterFrom typ (i + 1) tds
    else filterFrom typ (i + 1) tds

/-- Modelled from the spec: `diff.FilteredTableDiffs(typ)`. -/
def SchemaDiff.FilteredTableDiffs (diff : SchemaDiff) (typ : DiffType) :
    List (Nat × TableDiff) :=
  filterFrom typ 0 diff.TableDiffs

/-- Modelled from the spec: `fs.NewLogicalSchema()`, an empty blueprint. -/
def NewLogicalSchema : LogicalSchema :=
  { CharSet := "", Collation := "", Statements := [] }

/-- Modelled from the spec: `LogicalSchema.AddStatement` appends to the
blueprint; a second CREATE of the same object leaves the first one in place,
and the error it reports is dropped by the verifier. -/
def LogicalSchema.AddStatement (ls : LogicalSchema) (stmt : Statement) : LogicalSchema :=
  if stmt.Typ = .StatementTypeCreate ∧
      ls.Statements.any (fun s => decide (s.Typ = .StatementTypeCreate ∧
        s.ObjectType = stmt.ObjectType ∧ s.ObjectName = stmt.ObjectName)) then ls
  else { ls with Statements := ls.Statements ++ [stmt] }

/-- Modelled from the spec: `td.MarkSupported()` sets the `supported` flag. -/
def TableDiff.MarkSupported (td : TableDiff) : TableDiff :=
  { td with supported := true }

/-- The table diffs after `MarkSupported` has been called on the diffs at the
positions `marked`. -/
def markAll (marked : List Nat) (tds : List TableDiff) : List TableDiff :=
  marked.foldl (fun l i => l.modify TableDiff.MarkSupported i) tds

/-- The strict statement modifiers of `VerifyDiff` (lines 55 to 69). -/
def strictMods (env : Env) (vopts : VerifierOptions) : StatementModifiers :=
  let mods : StatementModifiers :=
    { NextAutoInc := .NextAutoIncAlways
      Partitioning := .PartitioningPermissive
      AllowUnsafe := true
      AlgorithmClause := "copy"
      StrictIndexOrder := true
      StrictCheckOrder := true
      StrictForeignKeyNaming := true
      StrictColumnDefinition := true
      SkipPreDropAlters := true
      Flavor := vopts.Flavor }
  if env.Matches mods.Flavor FlavorMySQL55 then { mods with AlgorithmClause := "" }
  else mods

/-- The modifiers of the second diff (lines 133 and 134). -/
def relaxMods (mods : StatementModifiers) : StatementModifiers :=
  { mods with StrictColumnDefinition := false, AlgorithmClause := "" }

/-- The function `verifyTable` of verifier.go; `none` is a nil error. -/
def verifyTable (env : Env) (actual : Option Table) (desired : Table)
    (mods : StatementModifiers) : Option GoError :=
  let td := env.NewAlterTable actual (some desired)
  let r := env.Statement td mods
  let stmt := r.1
  let err := r.2
  let header := "Diff verification failure on table " ++ desired.Name
  match errorsAs err with
  | some unsupportedErr =>
    let e1 := { unsupportedErr with
      Reason := stringsReplace1 unsupportedErr.Reason "original state" "post-verification state" }
    let e2 := { e1 with
      ExpectedDesc := stringsReplace1 e1.ExpectedDesc "original state" "post-verification state" }
    let e3 := { e2 with
      ActualDesc := stringsReplace1 e2.ActualDesc "original state" "post-verification state" }
    some (Errorf env (header ++ ". This may indicate a Skeema bug.\nRun command again with --skip-verify if this discrepancy is safe to ignore.\nDebug details: %s")
      [.str (env.ExtendedError e3)])
  | none =>
    match err with
    | some e =>
      some (Errorf env (header ++ " due to unexpected error: %w.\nRun command again with --skip-verify if this is safe to ignore.")
        [.err e])
    | none =>
      if stmt ≠ "" then
        some (Errorf env (header ++ ": the generated ALTER TABLE does not fully bring the table to the desired state.\nRun command again with --skip-verify if this discrepancy is safe to ignore.\nDebug details: secondary verification diff is non-empty, yielding this DDL: %s")
          [.str stmt])
      else none

/-- The state built by the first loop of `VerifyDiff`: the blueprint, the
statements submitted to it, and the two maps. -/
structure Collected where
  logicalSchema : LogicalSchema
  submitted : List Statement
  desiredTables : List (String × Table)
  unsupportedTables : List (String × Nat)
deriving DecidableEq, Repr

/-- Lines 95 to 107: the CREATE and the ALTER of `td` are submitted and its
`To` table is recorded as desired. -/
def enqueue (c : Collected) (td : TableDiff) (stmt : String) : Collected :=
  let create : Statement :=
    { Typ := .StatementTypeCreate
      Text := td.From.CreateStatement
      ObjectType := .ObjectTypeTable
      ObjectName := td.From.Name }
  let alter : Statement :=
    { Typ := .StatementTypeAlter
      Text := stmt
      ObjectType := .ObjectTypeTable
      ObjectName := td.From.Name }
  { c with
    logicalSchema := (c.logicalSchema.AddStatement create).AddStatement alter
    submitted := c.submitted ++ [create, alter]
    desiredTables := mapSet c.desiredTables td.From.Name td.To }

/-- One iteration of the first loop (lines 81 to 108) for the diff `p.2` at
position `p.1`. -/
def collectStep (env : Env) (vopts : VerifierOptions) (mods : StatementModifiers)
    (c : Collected) (p : Nat × TableDiff) : Collected :=
  let td := p.2
  let r := env.Statement (some td) mods
  let stmt := r.1
  let err := r.2
  if stmt = "" then c
  else if err ≠ none ∧ IsUnsupportedDiff err = true then
    enqueue { c with unsupportedTables := mapSet c.unsupportedTables td.From.Name p.1 } td stmt
  else if vopts.AllAlters = false then c
  else enqueue c td stmt

/-- The first loop of `VerifyDiff` over `altersInDiff`. -/
def collect (env : Env) (vopts : VerifierOptions) (mods : StatementModifiers)
    (altersInDiff : List (Nat × TableDiff)) : Collected :=
  altersInDiff.foldl (collectStep env vopts mods)
    { logicalSchema :=
        { NewLogicalSchema with
          CharSet := vopts.DefaultCharacterSet
          Collation := vopts.DefaultCollation }
      submitted := []
      desiredTables := []
      unsupportedTables := [] }

/-- One call of `verifyTable` made by `VerifyDiff`. -/
structure VerifyCall where
  name : String
  actual : Option Table
  desired : Table
  mods : StatementModifiers
deriving DecidableEq, Repr

/-- The second loop of `VerifyDiff` (lines 136 to 146) over the entries of
`desiredTables` in the order of the iteration: the returned error, the calls of
`verifyTable` and the positions of the diffs marked supported, in order. -/
def rediffLoop (env : Env) (actualTables : String → Option Table)
    (unsupportedTables : List (String × Nat)) (mods : StatementModifiers) :
    List (String × Table) → Option GoError × List VerifyCall × List Nat
  | [] => (none, [], [])
  | (name, desiredTable) :: rest =>
    let call : VerifyCall :=
      { name := name, actual := actualTables name, desired := desiredTable, mods := mods }
    match verifyTable env (actualTables name) desiredTable mods,
        mapGet unsupportedTables name with
    | none, some td =>
      let r := rediffLoop env actualTables unsupportedTables mods rest
      (r.1, call :: r.2.1, td :: r.2.2)
    | some err, none => (some err, [call], [])
    | _, _ =>
      let r := rediffLoop env actualTables unsupportedTables mods rest
      (r.1, call :: r.2.1, r.2.2)

/-- What a run of `VerifyDiff` returns and does: the error (`none` is nil),
the statements submitted to the blueprint, the calls of
`workspace.ExecLogicalSchema`, the calls of `verifyTable`, and the positions in
`diff.TableDiffs` of the diffs on which `MarkSupported` was called. -/
structure Outcome where
  err : Option GoError
  submitted : List Statement
  execCalls : List (LogicalSchema × WorkspaceOptions)
  verifyCalls : List VerifyCall
  marked : List Nat
deriving DecidableEq, Repr

/-- The function `VerifyDiff` of verifier.go. -/
def VerifyDiff (env : Env) (diff : SchemaDiff) (vopts : VerifierOptions) : Outcome :=
  let altersInDiff := diff.FilteredTableDiffs .DiffTypeAlter
  if altersInDiff.length = 0 then
    { err := none, submitted := [], execCalls := [], verifyCalls := [], marked := [] }
  else
    let mods := strictMods env vopts
    let c := collect env vopts mods altersInDiff
    if c.desiredTables.length = 0 then
      { err := none, submitted := c.submitted, execCalls := [], verifyCalls := [], marked := [] }
    else
      let r := env.ExecLogicalSchema c.logicalSchema vopts.WorkspaceOptions
      let wsSchema := r.1
      let err := if r.2 = none ∧ wsSchema.Failures.length > 0 then wsSchema.Failures.head? else r.2
      match err with
      | some e =>
        { err := some (Errorf env "Diff verification failure: %s" [.str (e.Error env)])
          submitted := c.submitted
          execCalls := [(c.logicalSchema, vopts.WorkspaceOptions)]
          verifyCalls := []
          marked := [] }
      | none =>
        let mods := relaxMods mods
        let actualTables := wsSchema.TablesByName
        let l := rediffLoop env actualTables c.unsupportedTables mods
          (rangeOrder env.mapOrder c.desiredTables)
        { err := l.1
          submitted := c.submitted
          execCalls := [(c.logicalSchema, vopts.WorkspaceOptions)]
          verifyCalls := l.2.1
          marked := l.2.2 }

/-- The table diffs of `diff` after the run. -/
def diffsAfter (env : Env) (diff : SchemaDiff) (vopts : VerifierOptions) : List TableDiff :=
  markAll (VerifyDiff env diff vopts).marked diff.TableDiffs

/-- The render of an alter diff in the first loop of `VerifyDiff`. -/
def strictRender (env : Env) (vopts : VerifierOptions) (td : TableDiff) :
    String × Option GoError :=
  env.Statement (some td) (strictMods env vopts)

/-- The diffs the first loop records in `unsupportedTables`: a non-empty
statement with an unsupported-diff error. -/
def recordedUnsupported (env : Env) (vopts : VerifierOptions) (td : TableDiff) : Bool :=
  decide ((strictRender env vopts td).1 ≠ "") && IsUnsupportedDiff (strictRender env vopts td).2

/-- The diffs the first loop enqueues: a non-empty statement, and either an
unsupported-diff error or `AllAlters`. -/
def enqueued (env : Env) (vopts : VerifierOptions) (td : TableDiff) : Bool :=
  decide ((strictRender env vopts td).1 ≠ "") &&
    (IsUnsupportedDiff (strictRender env vopts td).2 || vopts.AllAlters)

/-- The state of the first loop before its first iteration. -/
def collectInit (vopts : VerifierOptions) : Collected :=
  { logicalSchema :=
      { NewLogicalSchema with
        CharSet := vopts.DefaultCharacterSet
        Collation := vopts.DefaultCollation }
    submitted := []
    desiredTables := []
    unsupportedTables := [] }

/-- The state the first loop of `VerifyDiff` reaches on `diff`. -/
def collected (env : Env) (diff : SchemaDiff) (vopts : VerifierOptions) : Collected :=
  collect env vopts (strictMods env vopts) (diff.FilteredTableDiffs .DiffTypeAlter)

/-- The result of `workspace.ExecLogicalSchema` on the blueprint of the run
(line 116). -/
def wsResult (env : Env) (diff : SchemaDiff) (vopts : VerifierOptions) :
    WsSchema × Option GoError :=
  env.ExecLogicalSchema (collected env diff vopts).logicalSchema vopts.WorkspaceOptions

/-- The second diff of the run for the entry `(name, desired)` of
`desiredTables` (line 140). -/
def secondDiff (env : Env) (diff : SchemaDiff) (vopts : VerifierOptions) (name : String)
    (desired : Table) : Option GoError :=
  verifyTable env ((wsResult env diff vopts).1.TablesByName name) desired
    (relaxMods (strictMods env vopts))

/-- The result of a call of `verifyTable` recorded in the trace. -/
def VerifyCall.result (env : Env) (call : VerifyCall) : Option GoError :=
  verifyTable env call.actual call.desired call.mods

/-! ## Example inputs -/

/-- A table as found in the instance. -/
def tableOld : Table := { Name := "t", CreateStatement := "CREATE TABLE t (c int)" }

/-- The same table as the filesystem wants it. -/
def tableNew : Table := { Name := "t", CreateStatement := "CREATE TABLE t (c bigint)" }

/-- An alter diff the differ supports. -/
def alterSupported : TableDiff :=
  { Typ := .DiffTypeAlter, From := tableOld, To := tableNew,
    alterClauses := ["MODIFY COLUMN c bigint"], supported := true }

/-- The same alter diff flagged unsupported by the differ. -/
def alterUnsupported : TableDiff :=
  { Typ := .DiffTypeAlter, From := tableOld, To := tableNew,
    alterClauses := ["MODIFY COLUMN c bigint"], supported := false }

/-- An alter diff without clauses. -/
def alterNoop : TableDiff :=
  { Typ := .DiffTypeAlter, From := tableNew, To := tableNew, alterClauses := [],
    supported := true }

/-- A create diff. -/
def createDiff : TableDiff :=
  { Typ := .DiffTypeCreate, From := tableNew, To := tableNew, alterClauses := [],
    supported := true }

/-- A renderer for the examples: no statement for a nil diff or a diff without
clauses, otherwise an ALTER TABLE listing the clauses; an unsupported-diff
error when the diff is not flagged supported. -/
def demoRender (td : Option TableDiff) (_mods : StatementModifiers) :
    String × Option GoError :=
  match td with
  | none => ("", none)
  | some td =>
    (if td.alterClauses = [] then ""
      else "ALTER TABLE " ++ td.From.Name ++ " " ++ ", ".intercalate td.alterClauses,
     if td.supported then none
      else some (.unsupportedDiff
        { Reason := "unsupported feature", ExpectedDesc := "expected", ActualDesc := "actual" }))

/-- A differ for the examples: nil for equal tables, one MODIFY clause
otherwise. -/
def demoNewAlterTable (actual desired : Option Table) : Option TableDiff :=
  match actual, desired with
  | some a, some d =>
    if a = d then none
    else some { Typ := .DiffTypeAlter, From := a, To := d,
                alterClauses := ["MODIFY COLUMN c bigint"], supported := true }
  | _, _ => none

/-- An environment for the examples, with a workspace that returns the tables
`wsTables`, the failures `failures` and the error `execErr`. -/
def demoEnv (wsTables : List Table) (failures : List GoError) (execErr : Option GoError) :
    Env :=
  { Matches := fun f g => decide (f = g)
    Statement := demoRender
    NewAlterTable := demoNewAlterTable
    ExecLogicalSchema := fun _ _ =>
      ({ Failures := failures
         TablesByName := fun n => wsTables.find? (fun t => decide (t.Name = n)) }, execErr)
    ExtendedError := fun e => e.Reason
    ErrorText := fun e => e.Reason
    fmtOther := fun _ _ => ([], none)
    mapOrder := [] }

/-- Verifier options for the examples. -/
def demoOpts (allAlters : Bool) : VerifierOptions :=
  { AllAlters := allAlters
    Flavor := { Vendor := "mysql", Major := 8, Minor := 0 }
    DefaultCharacterSet := "utf8mb4"
    DefaultCollation := "utf8mb4_general_ci"
    WorkspaceOptions := { descr := "temp-schema" } }

/-- The environment of the examples in which every strict render of the first
loop also returns an error that is not an unsupported-diff error; the renders
of the second diff are those of `demoEnv`. -/
def renderErrorEnv (wsTables : List Table) : Env :=
  { demoEnv wsTables [] none with
    Statement := fun td m =>
      if m.StrictColumnDefinition = true then
        ((demoRender td m).1, some (.errorString "render failed"))
      else demoRender td m }

/-- The environment `env` in which the strict renders of the first loop lose
every error that is not an unsupported-diff error. -/
def dropRenderErrors (env : Env) (vopts : VerifierOptions) : Env :=
  { env with
    Statement := fun td m =>
      if m = strictMods env vopts ∧ IsUnsupportedDiff (env.Statement td m).2 = false then
        ((env.Statement td m).1, none)
      else env.Statement td m }

/-- An alter diff flagged unsupported that has no clauses: its render is an
empty statement with an unsupported-diff error. -/
def alterUnsupportedEmpty : TableDiff :=
  { Typ := .DiffTypeAlter, From := tableOld, To := tableNew, alterClauses := [],
    supported := false }

/-- Whether `p` occurs in the list as a contiguous segment. -/
def containsSub (p : List Char) : List Char → Bool
  | [] => startsWith p []
  | c :: cs => startsWith p (c :: cs) || containsSub p cs

/-- An environment of the examples whose every render fails with an error that
is not an unsupported-diff error. -/
def rediffErrorEnv : Env :=
  { demoEnv [] [] none with
    Statement := fun _ _ => ("", some (.errorString "lock wait timeout")) }

/-- An environment of the examples whose every render fails with an
unsupported-diff error: the reason holds the phrase twice, the expected
description not at all, the actual description once.  The extended error lists
the three descriptors. -/
def rediffUnsupportedEnv : Env :=
  { demoEnv [] [] none with
    Statement := fun _ _ =>
      ("", some (.unsupportedDiff
        { Reason := "original state differs from original state"
          ExpectedDesc := "desired state"
          ActualDesc := "the original state" }))
    ExtendedError := fun e => e.Reason ++ "|" ++ e.ExpectedDesc ++ "|" ++ e.ActualDesc }

/-- The table of that name as found in the workspace. -/
def tablePercentOld : Table := { Name := "a%%b", CreateStatement := "CREATE TABLE `a%%b` (c int)" }

/-- A desired table whose name holds two percent signs. -/
def tablePercent : Table := { Name := "a%%b", CreateStatement := "CREATE TABLE `a%%b` (c bigint)" }

/-- A first table of the two-table examples, as found in the instance. -/
def tableAOld : Table := { Name := "a", CreateStatement := "CREATE TABLE a (c int)" }

/-- The first table as the filesystem wants it. -/
def tableANew : Table := { Name := "a", CreateStatement := "CREATE TABLE a (c bigint)" }

/-- A second table, as found in the instance. -/
def tableBOld : Table := { Name := "b", CreateStatement := "CREATE TABLE b (c int)" }

/-- The second table as the filesystem wants it. -/
def tableBNew : Table := { Name := "b", CreateStatement := "CREATE TABLE b (c bigint)" }

/-- An alter diff of the first table flagged unsupported. -/
def alterAUnsupported : TableDiff :=
  { Typ := .DiffTypeAlter, From := tableAOld, To := tableANew,
    alterClauses := ["MODIFY COLUMN c bigint"], supported := false }

/-- An alter diff of the second table that the differ supports. -/
def alterBSupported : TableDiff :=
  { Typ := .DiffTypeAlter, From := tableBOld, To := tableBNew,
    alterClauses := ["MODIFY COLUMN c bigint"], supported := true }

/-- The environment of the two-table examples: the workspace brings the first
table to its desired state and leaves the second one unchanged; `seed` chooses
the iteration order of the second loop. -/
def demoEnvOrder (seed : List Nat) : Env :=
  { demoEnv [tableANew, tableBOld] [] none with mapOrder := seed }

/-- The last element of a list that satisfies `P`. -/
def lastWith {α : Type} (P : α → Bool) : List α → Option α
  | [] => none
  | a :: l =>
    match lastWith P l with
    | some b => some b
    | none => if P a = true then some a else none

/-- The last enqueued alter diff with the source table name `n`, with its
position. -/
def lastEnqueued (env : Env) (vopts : VerifierOptions) (n : String)
    (alters : List (Nat × TableDiff)) : Option (Nat × TableDiff) :=
  lastWith (fun p => enqueued env vopts p.2 && decide (p.2.From.Name = n)) alters

/-- The last alter diff with the source table name `n` that is recorded as
unsupported, with its position. -/
def lastRecorded (env : Env) (vopts : VerifierOptions) (n : String)
    (alters : List (Nat × TableDiff)) : Option (Nat × TableDiff) :=
  lastWith (fun p => recordedUnsupported env vopts p.2 && decide (p.2.From.Name = n)) alters

/-- The table of the one-table examples as a later diff wants it. -/
def tableNewer : Table := { Name := "t", CreateStatement := "CREATE TABLE t (c bigint, d int)" }

/-- A second supported alter diff of the same table, with another `To`. -/
def alterSupportedSecond : TableDiff :=
  { Typ := .DiffTypeAlter, From := tableOld, To := tableNewer,
    alterClauses := ["ADD COLUMN d int"], supported := true }

/-! ## Result aggregation -/

/-- Modelled from the spec: the struct `Result` of package applier, whose
declaration is not among the source files; the test `TestResultMerge` names its
fields. -/
structure Result where
  Differences : Bool
  SkipCount : Int
  UnsupportedCount : Int
deriving DecidableEq, Repr

/-- Modelled from the spec: the method `Result.Merge`, whose code is not among
the source files: "`differences` is logical-or; counts sum". The receiver after
the call is the returned value. -/
def Result.Merge (r other : Result) : Result :=
  { Differences := r.Differences || other.Differences
    SkipCount := r.SkipCount + other.SkipCount
    UnsupportedCount := r.UnsupportedCount + other.UnsupportedCount }

/-! ## The blueprint as the spec describes it -/

/-- The CREATE statement of a diff: the raw CREATE of its `From` table. -/
def createStatementOf (td : TableDiff) : Statement :=
  { Typ := .StatementTypeCreate
    Text := td.From.CreateStatement
    ObjectType := .ObjectTypeTable
    ObjectName := td.From.Name }

/-- The ALTER statement of a diff with the rendered text `stmt`. -/
def alterStatementOf (td : TableDiff) (stmt : String) : Statement :=
  { Typ := .StatementTypeAlter
    Text := stmt
    ObjectType := .ObjectTypeTable
    ObjectName := td.From.Name }

/-- Every ALTER of the list has a CREATE for the same object before it. -/
def AltersPreceded (L : List Statement) : Prop :=
  ∀ pre s post, L = pre ++ s :: post → s.Typ = .StatementTypeAlter →
    ∃ c ∈ pre, c.Typ = .StatementTypeCreate ∧ c.ObjectType = s.ObjectType ∧
      c.ObjectName = s.ObjectName

/-- The submissions in the words of the spec: in the order of the alter diffs,
for each diff with a non-empty strict render that returned an unsupported-diff
error or is processed with `AllAlters`, its CREATE followed by its ALTER. -/
def submissionsSpec (env : Env) (vopts : VerifierOptions) :
    List (Nat × TableDiff) → List Statement
  | [] => []
  | p :: l =>
    if enqueued env vopts p.2 = true then
      createStatementOf p.2 :: alterStatementOf p.2 (strictRender env vopts p.2).1 ::
        submissionsSpec env vopts l
    else submissionsSpec env vopts l

/-! ## Formatting lemmas -/

theorem doPrintf_cons_of_ne (env : Env) (c : Char) (rest : List Char) (args : List FmtArg)
    (h : c ≠ '%') :
    doPrintf env (c :: rest) args
      = (c :: (doPrintf env rest args).1, (doPrintf env rest args).2) := by
  rw [doPrintf.eq_def]
  simp [h]

theorem doPrintf_literal (env : Env) (lit rest : List Char) (args : List FmtArg)
    (h : ∀ c ∈ lit, c ≠ '%') :
    doPrintf env (lit ++ rest) args
      = (lit ++ (doPrintf env rest args).1, (doPrintf env rest args).2) := by
  induction lit with
  | nil => simp
  | cons c lit ih =>
    have hc : c ≠ '%' := h c (List.mem_cons_self c lit)
    have hl : ∀ d ∈ lit, d ≠ '%' := fun d hd => h d (List.mem_cons_of_mem c hd)
    rw [List.cons_append, doPrintf_cons_of_ne env c _ args hc, ih hl]
    simp

theorem Errorf_Error (env : Env) (format : String) (args : List FmtArg) :
    (Errorf env format args).Error env = String.mk (doPrintf env format.data args).1 := by
  cases h : (doPrintf env format.data args).2 <;> simp [Errorf, h, GoError.Error]

theorem Errorf_literal (env : Env) (lit rest : String) (args : List FmtArg)
    (h : ∀ c ∈ lit.data, c ≠ '%') :
    ∃ s : String, (Errorf env (lit ++ rest) args).Error env = lit ++ s := by
  refine ⟨String.mk (doPrintf env rest.data args).1, ?_⟩
  rw [Errorf_Error, String.data_append, doPrintf_literal env lit.data rest.data args h]
  rfl

theorem doPrintf_percent_s (env : Env) (a : FmtArg) :
    doPrintf env ['%', 's'] [a] = (a.text env, none) := by
  simp [doPrintf]

/-! ## Map lemmas -/

theorem mapGet_mapSet {β : Type} (m : List (String × β)) (k k' : String) (v : β) :
    mapGet (mapSet m k v) k' = if k = k' then some v else mapGet m k' := by
  induction m with
  | nil => simp [mapSet, mapGet]
  | cons e m ih =>
    obtain ⟨a, b⟩ := e
    by_cases hak : a = k
    · subst hak
      by_cases hk : a = k' <;> simp [mapSet, mapGet, hk]
    · by_cases hk : k = k'
      · subst hk
        simp [mapSet, mapGet, hak, ih]
      · by_cases hak' : a = k'
        · subst hak'
          simp [mapSet, mapGet, hak, hk]
        · simp [mapSet, mapGet, hak, hak', hk, ih]

theorem mapSet_ne_nil {β : Type} (m : List (String × β)) (k : String) (v : β) :
    mapSet m k v ≠ [] := by
  cases m with
  | nil => simp [mapSet]
  | cons e m =>
    obtain ⟨a, b⟩ := e
    by_cases hak : a = k <;> simp [mapSet, hak]

theorem mem_keys_mapSet {β : Type} (m : List (String × β)) (k n : String) (v : β) :
    n ∈ (mapSet m k v).map Prod.fst ↔ n = k ∨ n ∈ m.map Prod.fst := by
  induction m with
  | nil => simp [mapSet]
  | cons e m ih =>
    obtain ⟨a, b⟩ := e
    by_cases hak : a = k
    · subst hak
      simp [mapSet]
    · simp only [mapSet, hak, if_false, List.map_cons, List.mem_cons, ih]
      tauto

theorem nodup_keys_mapSet {β : Type} (m : List (String × β)) (k : String) (v : β)
    (h : (m.map Prod.fst).Nodup) : ((mapSet m k v).map Prod.fst).Nodup := by
  induction m with
  | nil => simp [mapSet]
  | cons e m ih =>
    obtain ⟨a, b⟩ := e
    rw [List.map_cons, List.nodup_cons] at h
    by_cases hak : a = k
    · subst hak
      simp only [mapSet, if_true, List.map_cons, List.nodup_cons]
      exact h
    · simp only [mapSet, hak, if_false, List.map_cons, List.nodup_cons]
      refine ⟨?_, ih h.2⟩
      rw [mem_keys_mapSet]
      rintro (h1 | h1)
      · exact hak h1
      · exact h.1 h1

theorem mapGet_of_mem {β : Type} (m : List (String × β)) (k : String) (v : β)
    (hnd : (m.map Prod.fst).Nodup) (h : (k, v) ∈ m) : mapGet m k = some v := by
  induction m with
  | nil => simp at h
  | cons e m ih =>
    obtain ⟨a, b⟩ := e
    rw [List.map_cons, List.nodup_cons] at hnd
    rcases List.mem_cons.mp h with h1 | h1
    · cases h1
      simp [mapGet]
    · have hne : a ≠ k := by
        rintro rfl
        exact hnd.1 (List.mem_map.mpr ⟨(a, v), h1, rfl⟩)
      simp [mapGet, hne, ih hnd.2 h1]

theorem mem_of_mapGet {β : Type} (m : List (String × β)) (k : String) (v : β)
    (h : mapGet m k = some v) : (k, v) ∈ m := by
  induction m with
  | nil => simp [mapGet] at h
  | cons e m ih =>
    obtain ⟨a, b⟩ := e
    by_cases hak : a = k
    · subst hak
      simp [mapGet] at h
      simp [h]
    · simp only [mapGet, hak, if_false] at h
      exact List.mem_cons_of_mem _ (ih h)

theorem mapGet_eq_none_iff {β : Type} (m : List (String × β)) (k : String) :
    mapGet m k = none ↔ k ∉ m.map Prod.fst := by
  induction m with
  | nil => simp [mapGet]
  | cons e m ih =>
    obtain ⟨a, b⟩ := e
    by_cases hak : a = k
    · subst hak
      simp [mapGet]
    · simp only [mapGet, hak, if_false, ih, List.map_cons, List.mem_cons]
      constructor
      · rintro h (h1 | h1)
        · exact hak h1.symm
        · exact h h1
      · intro h h1
        exact h (Or.inr h1)

/-! ## The iteration order is a permutation -/

theorem pickAt_perm {α : Type} (i : Nat) (x : α) (xs : List α) :
    ((pickAt i x xs).1 :: (pickAt i x xs).2).Perm (x :: xs) := by
  induction i generalizing x xs with
  | zero => simp [pickAt]
  | succ i ih =>
    cases xs with
    | nil => simp [pickAt]
    | cons y ys =>
      simp only [pickAt]
      exact (List.Perm.swap x _ _).trans (List.Perm.cons x (ih y ys))

theorem pickAt_length {α : Type} (i : Nat) (x : α) (xs : List α) :
    (pickAt i x xs).2.length = xs.length := by
  have h := (pickAt_perm i x xs).length_eq
  simpa using h

theorem rangeOrder_perm {α : Type} (seed : List Nat) (l : List α) :
    (rangeOrder seed l).Perm l := by
  induction seed generalizing l with
  | nil => cases l <;> simp [rangeOrder]
  | cons k ks ih =>
    cases l with
    | nil => simp [rangeOrder]
    | cons x xs =>
      simp only [rangeOrder]
      exact (List.Perm.cons _ (ih _)).trans (pickAt_perm _ x xs)

/-! ## The first loop -/

theorem IsUnsupportedDiff_ne_none (err : Option GoError) (h : IsUnsupportedDiff err = true) :
    err ≠ none := by
  rintro rfl
  simp [IsUnsupportedDiff, errorsAs] at h

theorem collectStep_eq (env : Env) (vopts : VerifierOptions) (c : Collected)
    (p : Nat × TableDiff) :
    collectStep env vopts (strictMods env vopts) c p =
      if enqueued env vopts p.2 = true then
        enqueue (if recordedUnsupported env vopts p.2 = true then
            { c with unsupportedTables := mapSet c.unsupportedTables p.2.From.Name p.1 }
          else c) p.2 (strictRender env vopts p.2).1
      else c := by
  unfold collectStep enqueued recordedUnsupported strictRender
  by_cases hs : (env.Statement (some p.2) (strictMods env vopts)).1 = ""
  · simp [hs]
  · by_cases hu : IsUnsupportedDiff (env.Statement (some p.2) (strictMods env vopts)).2 = true
    · have hn := IsUnsupportedDiff_ne_none _ hu
      simp [hs, hu, hn]
    · by_cases ha : vopts.AllAlters = true
      · simp [hs, hu, ha]
      · simp [hs, hu, ha]

theorem collect_eq_foldl (env : Env) (vopts : VerifierOptions) (l : List (Nat × TableDiff)) :
    collect env vopts (strictMods env vopts) l
      = l.foldl (collectStep env vopts (strictMods env vopts)) (collectInit vopts) := rfl

theorem foldl_collectStep_of_none_enqueued (env : Env) (vopts : VerifierOptions)
    (l : List (Nat × TableDiff)) (c : Collected)
    (h : ∀ p ∈ l, enqueued env vopts p.2 = false) :
    l.foldl (collectStep env vopts (strictMods env vopts)) c = c := by
  induction l generalizing c with
  | nil => rfl
  | cons p l ih =>
    have hp := h p (List.mem_cons_self p l)
    rw [List.foldl_cons, collectStep_eq, hp]
    simp only [Bool.false_eq_true, if_false]
    exact ih c (fun q hq => h q (List.mem_cons_of_mem p hq))

theorem desiredTables_collectStep (env : Env) (vopts : VerifierOptions) (c : Collected)
    (p : Nat × TableDiff) :
    (collectStep env vopts (strictMods env vopts) c p).desiredTables =
      if enqueued env vopts p.2 = true then mapSet c.desiredTables p.2.From.Name p.2.To
      else c.desiredTables := by
  rw [collectStep_eq]
  by_cases he : enqueued env vopts p.2 = true
  · by_cases hu : recordedUnsupported env vopts p.2 = true <;> simp [he, hu, enqueue]
  · simp [he]

theorem recordedUnsupported_enqueued (env : Env) (vopts : VerifierOptions) (td : TableDiff)
    (h : recordedUnsupported env vopts td = true) : enqueued env vopts td = true := by
  unfold recordedUnsupported at h
  unfold enqueued
  simp only [Bool.and_eq_true, Bool.or_eq_true] at h ⊢
  exact ⟨h.1, Or.inl h.2⟩

theorem unsupportedTables_collectStep (env : Env) (vopts : VerifierOptions) (c : Collected)
    (p : Nat × TableDiff) :
    (collectStep env vopts (strictMods env vopts) c p).unsupportedTables =
      if recordedUnsupported env vopts p.2 = true then
        mapSet c.unsupportedTables p.2.From.Name p.1
      else c.unsupportedTables := by
  rw [collectStep_eq]
  by_cases hu : recordedUnsupported env vopts p.2 = true
  · simp [hu, recordedUnsupported_enqueued env vopts p.2 hu, enqueue]
  · by_cases he : enqueued env vopts p.2 = true <;> simp [he, hu, enqueue]

theorem mem_keys_desiredTables_foldl (env : Env) (vopts : VerifierOptions)
    (l : List (Nat × TableDiff)) (c : Collected) (n : String) :
    n ∈ (l.foldl (collectStep env vopts (strictMods env vopts)) c).desiredTables.map Prod.fst ↔
      n ∈ c.desiredTables.map Prod.fst ∨
        ∃ p ∈ l, enqueued env vopts p.2 = true ∧ p.2.From.Name = n := by
  induction l generalizing c with
  | nil => simp
  | cons p l ih =>
    rw [List.foldl_cons, ih, desiredTables_collectStep]
    by_cases he : enqueued env vopts p.2 = true
    · simp only [he, if_true, mem_keys_mapSet, List.exists_mem_cons_iff]
      constructor
      · rintro ((h | h) | h)
        · exact Or.inr (Or.inl ⟨trivial, h.symm⟩)
        · exact Or.inl h
        · exact Or.inr (Or.inr h)
      · rintro (h | h | h)
        · exact Or.inl (Or.inr h)
        · exact Or.inl (Or.inl h.2.symm)
        · exact Or.inr h
    · simp [he]

theorem nodup_keys_desiredTables_foldl (env : Env) (vopts : VerifierOptions)
    (l : List (Nat × TableDiff)) (c : Collected)
    (h : (c.desiredTables.map Prod.fst).Nodup) :
    ((l.foldl (collectStep env vopts (strictMods env vopts)) c).desiredTables.map
      Prod.fst).Nodup := by
  induction l generalizing c with
  | nil => exact h
  | cons p l ih =>
    rw [List.foldl_cons]
    apply ih
    rw [desiredTables_collectStep]
    by_cases he : enqueued env vopts p.2 = true
    · simp only [he, if_true]
      exact nodup_keys_mapSet _ _ _ h
    · simp only [he, if_false]
      exact h

theorem mapGet_unsupportedTables_foldl (env : Env) (vopts : VerifierOptions)
    (l : List (Nat × TableDiff)) (c : Collected) (n : String) (i : Nat)
    (h : mapGet (l.foldl (collectStep env vopts (strictMods env vopts)) c).unsupportedTables n
      = some i) :
    mapGet c.unsupportedTables n = some i ∨
      ∃ td, (i, td) ∈ l ∧ td.From.Name = n ∧ recordedUnsupported env vopts td = true := by
  induction l generalizing c with
  | nil => exact Or.inl h
  | cons p l ih =>
    rw [List.foldl_cons] at h
    rcases ih _ h with h1 | ⟨td, hmem, hn, hr⟩
    · rw [unsupportedTables_collectStep] at h1
      by_cases hu : recordedUnsupported env vopts p.2 = true
      · simp only [hu, if_true, mapGet_mapSet] at h1
        by_cases hk : p.2.From.Name = n
        · simp only [hk, if_true, Option.some.injEq] at h1
          refine Or.inr ⟨p.2, ?_, hk, hu⟩
          rw [← h1]
          exact List.mem_cons_self _ _
        · simp only [hk, if_false] at h1
          exact Or.inl h1
      · simp only [hu, if_false] at h1
        exact Or.inl h1
    · exact Or.inr ⟨td, List.mem_cons_of_mem _ hmem, hn, hr⟩

theorem mem_keys_unsupportedTables_foldl (env : Env) (vopts : VerifierOptions)
    (l : List (Nat × TableDiff)) (c : Collected) (n : String) :
    n ∈ (l.foldl (collectStep env vopts (strictMods env vopts)) c).unsupportedTables.map
        Prod.fst ↔
      n ∈ c.unsupportedTables.map Prod.fst ∨
        ∃ p ∈ l, recordedUnsupported env vopts p.2 = true ∧ p.2.From.Name = n := by
  induction l generalizing c with
  | nil => simp
  | cons p l ih =>
    rw [List.foldl_cons, ih, unsupportedTables_collectStep]
    by_cases he : recordedUnsupported env vopts p.2 = true
    · simp only [he, if_true, mem_keys_mapSet, List.exists_mem_cons_iff]
      constructor
      · rintro ((h | h) | h)
        · exact Or.inr (Or.inl ⟨trivial, h.symm⟩)
        · exact Or.inl h
        · exact Or.inr (Or.inr h)
      · rintro (h | h | h)
        · exact Or.inl (Or.inr h)
        · exact Or.inl (Or.inl h.2.symm)
        · exact Or.inr h
    · simp [he]

/-! ## Positions of the alter diffs -/

theorem mem_filterFrom (typ : DiffType) (k : Nat) (tds : List TableDiff) (i : Nat)
    (td : TableDiff) (h : (i, td) ∈ filterFrom typ k tds) :
    k ≤ i ∧ tds.get? (i - k) = some td ∧ td.Typ = typ := by
  induction tds generalizing k with
  | nil => simp [filterFrom] at h
  | cons t tds ih =>
    have step : (i, td) ∈ filterFrom typ (k + 1) tds →
        k ≤ i ∧ (t :: tds).get? (i - k) = some td ∧ td.Typ = typ := by
      intro h1
      obtain ⟨h2, h3, h4⟩ := ih (k + 1) h1
      refine ⟨by omega, ?_, h4⟩
      have : i - k = (i - (k + 1)) + 1 := by omega
      rw [this, List.get?_cons_succ]
      exact h3
    by_cases ht : t.Typ = typ
    · simp only [filterFrom, ht, if_true, List.mem_cons] at h
      rcases h with h | h
      · cases h
        simp [ht]
      · exact step h
    · simp only [filterFrom, ht, if_false] at h
      exact step h

theorem mem_FilteredTableDiffs (diff : SchemaDiff) (typ : DiffType) (p : Nat × TableDiff)
    (h : p ∈ diff.FilteredTableDiffs typ) :
    diff.TableDiffs.get? p.1 = some p.2 ∧ p.2 ∈ diff.TableDiffs ∧ p.2.Typ = typ := by
  obtain ⟨i, td⟩ := p
  obtain ⟨_, h2, h3⟩ := mem_filterFrom typ 0 diff.TableDiffs i td h
  exact ⟨h2, List.get?_mem h2, h3⟩

theorem filterFrom_of_mem (typ : DiffType) (k : Nat) (tds : List TableDiff) (td : TableDiff)
    (h : td ∈ tds) (ht : td.Typ = typ) : ∃ i, (i, td) ∈ filterFrom typ k tds := by
  induction tds generalizing k with
  | nil => simp at h
  | cons t tds ih =>
    rcases List.mem_cons.mp h with h1 | h1
    · subst h1
      exact ⟨k, by simp [filterFrom, ht]⟩
    · obtain ⟨i, hi⟩ := ih (k + 1) h1
      refine ⟨i, ?_⟩
      by_cases htt : t.Typ = typ
      · simp [filterFrom, htt, hi]
      · simp [filterFrom, htt, hi]

/-! ## The second loop -/

theorem rediffLoop_cons (env : Env) (actualTables : String → Option Table)
    (unsup : List (String × Nat)) (mods : StatementModifiers) (name : String)
    (desired : Table) (rest : List (String × Table)) :
    rediffLoop env actualTables unsup mods ((name, desired) :: rest) =
      match verifyTable env (actualTables name) desired mods, mapGet unsup name with
      | none, some td =>
        ((rediffLoop env actualTables unsup mods rest).1,
          { name := name, actual := actualTables name, desired := desired, mods := mods } ::
            (rediffLoop env actualTables unsup mods rest).2.1,
          td :: (rediffLoop env actualTables unsup mods rest).2.2)
      | some err, none =>
        (some err,
          [{ name := name, actual := actualTables name, desired := desired, mods := mods }], [])
      | _, _ =>
        ((rediffLoop env actualTables unsup mods rest).1,
          { name := name, actual := actualTables name, desired := desired, mods := mods } ::
            (rediffLoop env actualTables unsup mods rest).2.1,
          (rediffLoop env actualTables unsup mods rest).2.2) := by
  rw [rediffLoop]

/-- Every recorded call has the modifiers and the workspace table of the loop
and an entry of the visited list. -/
theorem rediffLoop_calls (env : Env) (actualTables : String → Option Table)
    (unsup : List (String × Nat)) (mods : StatementModifiers) (ord : List (String × Table)) :
    ∀ call ∈ (rediffLoop env actualTables unsup mods ord).2.1,
      call.mods = mods ∧ call.actual = actualTables call.name ∧
        (call.name, call.desired) ∈ ord := by
  induction ord with
  | nil => simp [rediffLoop]
  | cons p rest ih =>
    obtain ⟨name, desired⟩ := p
    intro call hcall
    rw [rediffLoop_cons] at hcall
    have key : call ∈ (⟨name, actualTables name, desired, mods⟩ : VerifyCall) ::
          (rediffLoop env actualTables unsup mods rest).2.1 →
        call.mods = mods ∧ call.actual = actualTables call.name ∧
          (call.name, call.desired) ∈ (name, desired) :: rest := by
      intro h
      rcases List.mem_cons.mp h with h1 | h1
      · subst h1
        simp
      · obtain ⟨h2, h3, h4⟩ := ih call h1
        exact ⟨h2, h3, List.mem_cons_of_mem _ h4⟩
    cases hv : verifyTable env (actualTables name) desired mods <;>
      cases hu : mapGet unsup name <;> simp only [hv, hu] at hcall
    · exact key hcall
    · exact key hcall
    · rcases List.mem_singleton.mp hcall with rfl
      exact key (List.mem_cons_self _ _)
    · exact key hcall

/-- The marked positions are exactly those recorded for a processed name whose
second diff is clean. -/
theorem rediffLoop_marked (env : Env) (actualTables : String → Option Table)
    (unsup : List (String × Nat)) (mods : StatementModifiers) (ord : List (String × Table))
    (i : Nat) :
    i ∈ (rediffLoop env actualTables unsup mods ord).2.2 ↔
      ∃ call ∈ (rediffLoop env actualTables unsup mods ord).2.1,
        call.result env = none ∧ mapGet unsup call.name = some i := by
  induction ord with
  | nil => simp [rediffLoop]
  | cons p rest ih =>
    obtain ⟨name, desired⟩ := p
    rw [rediffLoop_cons]
    cases hv : verifyTable env (actualTables name) desired mods <;>
      cases hu : mapGet unsup name <;>
      simp only [List.mem_cons, List.exists_mem_cons_iff, ih, VerifyCall.result, hv, hu]
    · simp [hu]
    · simp [hv, hu, eq_comm]
    · simp [hv]
    · simp [hv]

/-- A returned error is the second diff of a processed name with no unsupported
diff recorded. -/
theorem rediffLoop_err (env : Env) (actualTables : String → Option Table)
    (unsup : List (String × Nat)) (mods : StatementModifiers) (ord : List (String × Table))
    (e : GoError) (h : (rediffLoop env actualTables unsup mods ord).1 = some e) :
    ∃ call ∈ (rediffLoop env actualTables unsup mods ord).2.1,
      call.result env = some e ∧ mapGet unsup call.name = none := by
  induction ord with
  | nil => simp [rediffLoop] at h
  | cons p rest ih =>
    obtain ⟨name, desired⟩ := p
    rw [rediffLoop_cons] at h ⊢
    cases hv : verifyTable env (actualTables name) desired mods <;>
      cases hu : mapGet unsup name <;> simp only [hv, hu] at h ⊢
    · obtain ⟨call, hc, h1⟩ := ih h
      exact ⟨call, List.mem_cons_of_mem _ hc, h1⟩
    · obtain ⟨call, hc, h1⟩ := ih h
      exact ⟨call, List.mem_cons_of_mem _ hc, h1⟩
    · refine ⟨_, List.mem_singleton.mpr rfl, ?_, hu⟩
      simp only [VerifyCall.result, hv]
      exact h
    · obtain ⟨call, hc, h1⟩ := ih h
      exact ⟨call, List.mem_cons_of_mem _ hc, h1⟩

/-- A processed name whose second diff fails with no unsupported diff recorded
ends the loop with that error. -/
theorem rediffLoop_fail (env : Env) (actualTables : String → Option Table)
    (unsup : List (String × Nat)) (mods : StatementModifiers) (ord : List (String × Table))
    (e : GoError) :
    ∀ call ∈ (rediffLoop env actualTables unsup mods ord).2.1,
      call.result env = some e → mapGet unsup call.name = none →
        (rediffLoop env actualTables unsup mods ord).1 = some e := by
  induction ord with
  | nil => simp [rediffLoop]
  | cons p rest ih =>
    obtain ⟨name, desired⟩ := p
    intro call hcall hres hnone
    rw [rediffLoop_cons] at hcall ⊢
    cases hv : verifyTable env (actualTables name) desired mods <;>
      cases hu : mapGet unsup name <;> simp only [hv, hu] at hcall ⊢
    · rcases List.mem_cons.mp hcall with h1 | h1
      · subst h1
        simp [VerifyCall.result, hv] at hres
      · exact ih call h1 hres hnone
    · rcases List.mem_cons.mp hcall with h1 | h1
      · subst h1
        simp [VerifyCall.result, hv] at hres
      · exact ih call h1 hres hnone
    · rcases List.mem_singleton.mp hcall with rfl
      simp only [VerifyCall.result, hv] at hres
      exact hres
    · rcases List.mem_cons.mp hcall with h1 | h1
      · subst h1
        simp [hu] at hnone
      · exact ih call h1 hres hnone

/-- The processed names are an initial segment of the visited list, and all of
it when no error is returned. -/
theorem rediffLoop_processed (env : Env) (actualTables : String → Option Table)
    (unsup : List (String × Nat)) (mods : StatementModifiers) (ord : List (String × Table)) :
    ∃ processed rest, ord = processed ++ rest ∧
      (rediffLoop env actualTables unsup mods ord).2.1.map (fun call => (call.name, call.desired))
        = processed ∧
      ((rediffLoop env actualTables unsup mods ord).1 = none → rest = []) := by
  induction ord with
  | nil => exact ⟨[], [], rfl, by simp [rediffLoop], fun _ => rfl⟩
  | cons p rest ih =>
    obtain ⟨name, desired⟩ := p
    obtain ⟨pr, rs, h1, h2, h3⟩ := ih
    rw [rediffLoop_cons]
    cases hv : verifyTable env (actualTables name) desired mods <;>
      cases hu : mapGet unsup name <;> simp only [hv, hu]
    · exact ⟨(name, desired) :: pr, rs, by rw [h1]; rfl, by simp [h2], h3⟩
    · exact ⟨(name, desired) :: pr, rs, by rw [h1]; rfl, by simp [h2], h3⟩
    · exact ⟨[(name, desired)], rest, rfl, by simp, by simp⟩
    · exact ⟨(name, desired) :: pr, rs, by rw [h1]; rfl, by simp [h2], h3⟩

/-- The marked positions are among the positions recorded for the visited
names, in the order of the visit. -/
theorem rediffLoop_marked_sublist (env : Env) (actualTables : String → Option Table)
    (unsup : List (String × Nat)) (mods : StatementModifiers) (ord : List (String × Table)) :
    ((rediffLoop env actualTables unsup mods ord).2.2).Sublist
      ((ord.map Prod.fst).filterMap (mapGet unsup)) := by
  induction ord with
  | nil => simp [rediffLoop]
  | cons p rest ih =>
    obtain ⟨name, desired⟩ := p
    rw [rediffLoop_cons]
    cases hv : verifyTable env (actualTables name) desired mods <;>
      cases hu : mapGet unsup name <;>
      simp only [hv, hu, List.map_cons, List.filterMap_cons]
    · exact ih
    · exact List.Sublist.cons₂ _ ih
    · exact List.nil_sublist _
    · exact List.Sublist.cons _ ih

/-- A visited name whose second diff fails with no unsupported diff recorded
makes the loop return an error. -/
theorem rediffLoop_ne_none (env : Env) (actualTables : String → Option Table)
    (unsup : List (String × Nat)) (mods : StatementModifiers) (ord : List (String × Table))
    (p : String × Table) (hp : p ∈ ord)
    (hv : verifyTable env (actualTables p.1) p.2 mods ≠ none)
    (hu : mapGet unsup p.1 = none) :
    (rediffLoop env actualTables unsup mods ord).1 ≠ none := by
  induction ord with
  | nil => simp at hp
  | cons q rest ih =>
    obtain ⟨name, desired⟩ := q
    rw [rediffLoop_cons]
    rcases List.mem_cons.mp hp with h1 | h1
    · subst h1
      simp only at hv hu
      cases hv1 : verifyTable env (actualTables name) desired mods
      · exact absurd hv1 hv
      · simp [hu]
    · cases hv1 : verifyTable env (actualTables name) desired mods <;>
        cases hu1 : mapGet unsup name <;> simp only [hv1, hu1]
      · exact ih h1
      · exact ih h1
      · simp
      · exact ih h1

/-! ## The paths through `VerifyDiff` -/

theorem Errorf_workspace (env : Env) (m : String) :
    Errorf env "Diff verification failure: %s" [.str m]
      = .errorString ("Diff verification failure: " ++ m) := by
  have hfmt : ("Diff verification failure: %s" : String).data
      = ("Diff verification failure: " : String).data ++ ['%', 's'] := by decide
  have hlit : ∀ c ∈ ("Diff verification failure: " : String).data, c ≠ '%' := by decide
  have h := doPrintf_literal env _ ['%', 's'] [.str m] hlit
  rw [doPrintf_percent_s] at h
  unfold Errorf
  rw [hfmt, h]
  simp [FmtArg.text]
  rfl

theorem collected_eq_foldl (env : Env) (diff : SchemaDiff) (vopts : VerifierOptions) :
    collected env diff vopts
      = (diff.FilteredTableDiffs .DiffTypeAlter).foldl
          (collectStep env vopts (strictMods env vopts)) (collectInit vopts) := rfl

theorem mem_keys_desiredTables (env : Env) (diff : SchemaDiff) (vopts : VerifierOptions)
    (n : String) :
    n ∈ (collected env diff vopts).desiredTables.map Prod.fst ↔
      ∃ p ∈ diff.FilteredTableDiffs .DiffTypeAlter,
        enqueued env vopts p.2 = true ∧ p.2.From.Name = n := by
  rw [collected_eq_foldl, mem_keys_desiredTables_foldl]
  simp [collectInit]

theorem nodup_keys_desiredTables (env : Env) (diff : SchemaDiff) (vopts : VerifierOptions) :
    ((collected env diff vopts).desiredTables.map Prod.fst).Nodup := by
  rw [collected_eq_foldl]
  exact nodup_keys_desiredTables_foldl env vopts _ _ (by simp [collectInit])

theorem desiredTables_ne_nil (env : Env) (diff : SchemaDiff) (vopts : VerifierOptions)
    (h : ∃ td ∈ diff.TableDiffs, td.Typ = .DiffTypeAlter ∧ enqueued env vopts td = true) :
    (collected env diff vopts).desiredTables ≠ [] := by
  obtain ⟨td, hmem, htyp, henq⟩ := h
  obtain ⟨i, hi⟩ := filterFrom_of_mem .DiffTypeAlter 0 diff.TableDiffs td hmem htyp
  have hk : td.From.Name ∈ (collected env diff vopts).desiredTables.map Prod.fst :=
    (mem_keys_desiredTables env diff vopts _).mpr ⟨(i, td), hi, henq, rfl⟩
  intro hnil
  rw [hnil] at hk
  simp at hk

theorem desiredTables_eq_nil (env : Env) (diff : SchemaDiff) (vopts : VerifierOptions)
    (h : ∀ td ∈ diff.TableDiffs, td.Typ = .DiffTypeAlter → enqueued env vopts td = false) :
    (collected env diff vopts).desiredTables = [] := by
  rw [collected_eq_foldl, foldl_collectStep_of_none_enqueued]
  · rfl
  · intro p hp
    obtain ⟨_, h2, h3⟩ := mem_FilteredTableDiffs diff _ p hp
    exact h p.2 h2 h3

theorem VerifyDiff_of_desired_nil (env : Env) (diff : SchemaDiff) (vopts : VerifierOptions)
    (h : (collected env diff vopts).desiredTables = []) :
    (VerifyDiff env diff vopts).err = none ∧ (VerifyDiff env diff vopts).execCalls = [] ∧
      (VerifyDiff env diff vopts).verifyCalls = [] ∧ (VerifyDiff env diff vopts).marked = [] := by
  unfold collected at h
  unfold VerifyDiff
  by_cases h0 : (diff.FilteredTableDiffs .DiffTypeAlter).length = 0
  · simp [h0]
  · simp [h0, h]

theorem VerifyDiff_of_desired_ne_nil (env : Env) (diff : SchemaDiff) (vopts : VerifierOptions)
    (h : (collected env diff vopts).desiredTables ≠ []) :
    VerifyDiff env diff vopts =
      match (if (wsResult env diff vopts).2 = none ∧
          (wsResult env diff vopts).1.Failures.length > 0
          then (wsResult env diff vopts).1.Failures.head? else (wsResult env diff vopts).2) with
      | some e =>
        { err := some (Errorf env "Diff verification failure: %s" [.str (e.Error env)])
          submitted := (collected env diff vopts).submitted
          execCalls := [((collected env diff vopts).logicalSchema, vopts.WorkspaceOptions)]
          verifyCalls := []
          marked := [] }
      | none =>
        { err := (rediffLoop env (wsResult env diff vopts).1.TablesByName
            (collected env diff vopts).unsupportedTables (relaxMods (strictMods env vopts))
            (rangeOrder env.mapOrder (collected env diff vopts).desiredTables)).1
          submitted := (collected env diff vopts).submitted
          execCalls := [((collected env diff vopts).logicalSchema, vopts.WorkspaceOptions)]
          verifyCalls := (rediffLoop env (wsResult env diff vopts).1.TablesByName
            (collected env diff vopts).unsupportedTables (relaxMods (strictMods env vopts))
            (rangeOrder env.mapOrder (collected env diff vopts).desiredTables)).2.1
          marked := (rediffLoop env (wsResult env diff vopts).1.TablesByName
            (collected env diff vopts).unsupportedTables (relaxMods (strictMods env vopts))
            (rangeOrder env.mapOrder (collected env diff vopts).desiredTables)).2.2 } := by
  have h0 : ¬ (diff.FilteredTableDiffs .DiffTypeAlter).length = 0 := by
    intro h0
    apply h
    have : diff.FilteredTableDiffs .DiffTypeAlter = [] := List.length_eq_zero.mp h0
    simp [collected, this, collect]
  have h1 : ¬ (collect env vopts (strictMods env vopts)
      (diff.FilteredTableDiffs .DiffTypeAlter)).desiredTables.length = 0 := by
    intro h1
    exact h (List.length_eq_zero.mp h1)
  unfold VerifyDiff
  simp only [h0, h1, if_false]
  rfl

theorem VerifyDiff_exec_error (env : Env) (diff : SchemaDiff) (vopts : VerifierOptions)
    (h : (collected env diff vopts).desiredTables ≠ []) (e : GoError)
    (he : (wsResult env diff vopts).2 = some e) :
    VerifyDiff env diff vopts =
      { err := some (.errorString ("Diff verification failure: " ++ e.Error env))
        submitted := (collected env diff vopts).submitted
        execCalls := [((collected env diff vopts).logicalSchema, vopts.WorkspaceOptions)]
        verifyCalls := []
        marked := [] } := by
  rw [VerifyDiff_of_desired_ne_nil env diff vopts h]
  simp [he, Errorf_workspace]

theorem VerifyDiff_exec_failure (env : Env) (diff : SchemaDiff) (vopts : VerifierOptions)
    (h : (collected env diff vopts).desiredTables ≠ []) (f : GoError) (fs : List GoError)
    (he : (wsResult env diff vopts).2 = none)
    (hf : (wsResult env diff vopts).1.Failures = f :: fs) :
    VerifyDiff env diff vopts =
      { err := some (.errorString ("Diff verification failure: " ++ f.Error env))
        submitted := (collected env diff vopts).submitted
        execCalls := [((collected env diff vopts).logicalSchema, vopts.WorkspaceOptions)]
        verifyCalls := []
        marked := [] } := by
  rw [VerifyDiff_of_desired_ne_nil env diff vopts h]
  simp [he, hf, Errorf_workspace]

theorem VerifyDiff_exec_ok (env : Env) (diff : SchemaDiff) (vopts : VerifierOptions)
    (h : (collected env diff vopts).desiredTables ≠ [])
    (he : (wsResult env diff vopts).2 = none)
    (hf : (wsResult env diff vopts).1.Failures = []) :
    VerifyDiff env diff vopts =
      { err := (rediffLoop env (wsResult env diff vopts).1.TablesByName
          (collected env diff vopts).unsupportedTables (relaxMods (strictMods env vopts))
          (rangeOrder env.mapOrder (collected env diff vopts).desiredTables)).1
        submitted := (collected env diff vopts).submitted
        execCalls := [((collected env diff vopts).logicalSchema, vopts.WorkspaceOptions)]
        verifyCalls := (rediffLoop env (wsResult env diff vopts).1.TablesByName
          (collected env diff vopts).unsupportedTables (relaxMods (strictMods env vopts))
          (rangeOrder env.mapOrder (collected env diff vopts).desiredTables)).2.1
        marked := (rediffLoop env (wsResult env diff vopts).1.TablesByName
          (collected env diff vopts).unsupportedTables (relaxMods (strictMods env vopts))
          (rangeOrder env.mapOrder (collected env diff vopts).desiredTables)).2.2 } := by
  rw [VerifyDiff_of_desired_ne_nil env diff vopts h]
  simp [he, hf]

/-! ## `verifyTable` -/

theorem header_split (name tail : String) :
    ("Diff verification failure on table " ++ name) ++ tail
      = "Diff verification failure" ++ (" on table " ++ name ++ tail) := by
  have h : ("Diff verification failure on table " : String)
      = "Diff verification failure" ++ " on table " := by decide
  rw [h, String.append_assoc, String.append_assoc, String.append_assoc]

theorem Errorf_header (env : Env) (name tail : String) (args : List FmtArg) :
    ∃ s : String,
      (Errorf env (("Diff verification failure on table " ++ name) ++ tail) args).Error env
        = "Diff verification failure" ++ s := by
  rw [header_split]
  exact Errorf_literal env _ _ args (by decide)

theorem verifyTable_unsupported (env : Env) (actual : Option Table) (desired : Table)
    (mods : StatementModifiers) (u : UnsupportedDiffError)
    (hu : errorsAs (env.Statement (env.NewAlterTable actual (some desired)) mods).2 = some u) :
    verifyTable env actual desired mods =
      some (Errorf env (("Diff verification failure on table " ++ desired.Name) ++ ". This may indicate a Skeema bug.\nRun command again with --skip-verify if this discrepancy is safe to ignore.\nDebug details: %s")
        [.str (env.ExtendedError
          { Reason := stringsReplace1 u.Reason "original state" "post-verification state"
            ExpectedDesc := stringsReplace1 u.ExpectedDesc "original state" "post-verification state"
            ActualDesc := stringsReplace1 u.ActualDesc "original state" "post-verification state" })]) := by
  unfold verifyTable
  simp only [hu]

theorem verifyTable_other (env : Env) (actual : Option Table) (desired : Table)
    (mods : StatementModifiers) (e : GoError)
    (he : (env.Statement (env.NewAlterTable actual (some desired)) mods).2 = some e)
    (hu : errorsAs (some e) = none) :
    verifyTable env actual desired mods =
      some (Errorf env (("Diff verification failure on table " ++ desired.Name) ++ " due to unexpected error: %w.\nRun command again with --skip-verify if this is safe to ignore.")
        [.err e]) := by
  unfold verifyTable
  simp only [he, hu]

theorem verifyTable_nonempty (env : Env) (actual : Option Table) (desired : Table)
    (mods : StatementModifiers)
    (he : (env.Statement (env.NewAlterTable actual (some desired)) mods).2 = none)
    (hs : (env.Statement (env.NewAlterTable actual (some desired)) mods).1 ≠ "") :
    verifyTable env actual desired mods =
      some (Errorf env (("Diff verification failure on table " ++ desired.Name) ++ ": the generated ALTER TABLE does not fully bring the table to the desired state.\nRun command again with --skip-verify if this discrepancy is safe to ignore.\nDebug details: secondary verification diff is non-empty, yielding this DDL: %s")
        [.str (env.Statement (env.NewAlterTable actual (some desired)) mods).1]) := by
  unfold verifyTable
  simp only [he, errorsAs, hs, ne_eq, not_false_eq_true, if_true]

theorem verifyTable_clean (env : Env) (actual : Option Table) (desired : Table)
    (mods : StatementModifiers)
    (he : (env.Statement (env.NewAlterTable actual (some desired)) mods).2 = none)
    (hs : (env.Statement (env.NewAlterTable actual (some desired)) mods).1 = "") :
    verifyTable env actual desired mods = none := by
  unfold verifyTable
  simp [he, errorsAs, hs]

theorem verifyTable_message (env : Env) (actual : Option Table) (desired : Table)
    (mods : StatementModifiers) (e : GoError)
    (h : verifyTable env actual desired mods = some e) :
    ∃ s : String, e.Error env = "Diff verification failure" ++ s := by
  cases he : (env.Statement (env.NewAlterTable actual (some desired)) mods).2 with
  | some e1 =>
    cases hu : errorsAs (some e1) with
    | some u =>
      rw [verifyTable_unsupported env actual desired mods u (by rw [he]; exact hu)] at h
      simp only [Option.some.injEq] at h
      rw [← h]
      exact Errorf_header env _ _ _
    | none =>
      rw [verifyTable_other env actual desired mods e1 he hu] at h
      simp only [Option.some.injEq] at h
      rw [← h]
      exact Errorf_header env _ _ _
  | none =>
    by_cases hs : (env.Statement (env.NewAlterTable actual (some desired)) mods).1 = ""
    · rw [verifyTable_clean env actual desired mods he hs] at h
      cases h
    · rw [verifyTable_nonempty env actual desired mods he hs] at h
      simp only [Option.some.injEq] at h
      rw [← h]
      exact Errorf_header env _ _ _

theorem verifyTable_ne_none_of_nonempty (env : Env) (actual : Option Table) (desired : Table)
    (mods : StatementModifiers)
    (hs : (env.Statement (env.NewAlterTable actual (some desired)) mods).1 ≠ "") :
    verifyTable env actual desired mods ≠ none := by
  cases he : (env.Statement (env.NewAlterTable actual (some desired)) mods).2 with
  | some e1 =>
    cases hu : errorsAs (some e1) with
    | some u =>
      rw [verifyTable_unsupported env actual desired mods u (by rw [he]; exact hu)]
      simp
    | none =>
      rw [verifyTable_other env actual desired mods e1 he hu]
      simp
  | none =>
    rw [verifyTable_nonempty env actual desired mods he hs]
    simp

/-! ## The claims -/

/-- C1: for every schema diff and all verifier options, if the diff has no
alter-kind table diff, or every alter-kind table diff renders to the empty
statement under the strict policy, then `VerifyDiff` returns nil and never
calls `workspace.ExecLogicalSchema` (nor re-diffs a table or marks a diff). -/
theorem VerifyDiff_nothing_to_verify (env : Env) (diff : SchemaDiff) (vopts : VerifierOptions)
    (h : (∀ td ∈ diff.TableDiffs, td.Typ ≠ .DiffTypeAlter) ∨
      (∀ td ∈ diff.TableDiffs, td.Typ = .DiffTypeAlter →
        (env.Statement (some td) (strictMods env vopts)).1 = "")) :
    (VerifyDiff env diff vopts).err = none ∧ (VerifyDiff env diff vopts).execCalls = [] ∧
      (VerifyDiff env diff vopts).verifyCalls = [] ∧ (VerifyDiff env diff vopts).marked = [] := by
  apply VerifyDiff_of_desired_nil
  apply desiredTables_eq_nil
  intro td hmem htyp
  rcases h with h | h
  · exact absurd htyp (h td hmem)
  · simp [enqueued, strictRender, h td hmem htyp]

/-- Witness of C1 on a diff with a create diff and an alter diff without
clauses. -/
theorem VerifyDiff_nothing_to_verify_witness :
    (∀ td ∈ [createDiff, alterNoop], td.Typ = .DiffTypeAlter →
        ((demoEnv [] [] none).Statement (some td)
          (strictMods (demoEnv [] [] none) (demoOpts true))).1 = "") ∧
      (VerifyDiff (demoEnv [] [] none) ⟨[createDiff, alterNoop]⟩ (demoOpts true)).err = none ∧
      (VerifyDiff (demoEnv [] [] none) ⟨[createDiff, alterNoop]⟩ (demoOpts true)).execCalls
        = [] :=
  ⟨by decide,
    (VerifyDiff_nothing_to_verify (demoEnv [] [] none) ⟨[createDiff, alterNoop]⟩ (demoOpts true)
      (Or.inr (by decide))).1,
    (VerifyDiff_nothing_to_verify (demoEnv [] [] none) ⟨[createDiff, alterNoop]⟩ (demoOpts true)
      (Or.inr (by decide))).2.1⟩

/-- C2: if `AllAlters` is false and no alter-kind table diff has a strict render
that returns an unsupported-diff error, then `VerifyDiff` returns nil, calls
`workspace.ExecLogicalSchema` zero times and marks no diff as supported. -/
theorem VerifyDiff_verify_disabled (env : Env) (diff : SchemaDiff) (vopts : VerifierOptions)
    (hall : vopts.AllAlters = false)
    (h : ∀ td ∈ diff.TableDiffs, td.Typ = .DiffTypeAlter →
      IsUnsupportedDiff (env.Statement (some td) (strictMods env vopts)).2 = false) :
    (VerifyDiff env diff vopts).err = none ∧ (VerifyDiff env diff vopts).execCalls = [] ∧
      (VerifyDiff env diff vopts).marked = [] := by
  have h1 := VerifyDiff_of_desired_nil env diff vopts (by
    apply desiredTables_eq_nil
    intro td hmem htyp
    simp [enqueued, strictRender, h td hmem htyp, hall])
  exact ⟨h1.1, h1.2.1, h1.2.2.2⟩

/-- Witness of C2 on a supported alter diff with a non-empty statement. -/
theorem VerifyDiff_verify_disabled_witness :
    (demoOpts false).AllAlters = false ∧
      (∀ td ∈ [alterSupported], td.Typ = .DiffTypeAlter →
        IsUnsupportedDiff ((demoEnv [] [] none).Statement (some td)
          (strictMods (demoEnv [] [] none) (demoOpts false))).2 = false) ∧
      (VerifyDiff (demoEnv [] [] none) ⟨[alterSupported]⟩ (demoOpts false)).err = none ∧
      (VerifyDiff (demoEnv [] [] none) ⟨[alterSupported]⟩ (demoOpts false)).execCalls = [] ∧
      (VerifyDiff (demoEnv [] [] none) ⟨[alterSupported]⟩ (demoOpts false)).marked = [] :=
  ⟨rfl, by decide,
    VerifyDiff_verify_disabled (demoEnv [] [] none) ⟨[alterSupported]⟩ (demoOpts false) rfl
      (by decide)⟩

/-- C3: whenever `VerifyDiff` returns a non-nil error (from a workspace error,
a workspace statement failure or a failing second diff), the message of the
error begins with the text "Diff verification failure". -/
theorem VerifyDiff_error_message (env : Env) (diff : SchemaDiff) (vopts : VerifierOptions)
    (e : GoError) (h : (VerifyDiff env diff vopts).err = some e) :
    ∃ s : String, e.Error env = "Diff verification failure" ++ s := by
  by_cases hd : (collected env diff vopts).desiredTables = []
  · rw [(VerifyDiff_of_desired_nil env diff vopts hd).1] at h
    cases h
  · cases he : (wsResult env diff vopts).2 with
    | some e1 =>
      rw [VerifyDiff_exec_error env diff vopts hd e1 he] at h
      simp only [Option.some.injEq] at h
      rw [← h]
      exact ⟨": " ++ e1.Error env, by
        simp only [GoError.Error]
        rw [← String.append_assoc]
        rfl⟩
    | none =>
      cases hf : (wsResult env diff vopts).1.Failures with
      | cons f fs =>
        rw [VerifyDiff_exec_failure env diff vopts hd f fs he hf] at h
        simp only [Option.some.injEq] at h
        rw [← h]
        exact ⟨": " ++ f.Error env, by
          simp only [GoError.Error]
          rw [← String.append_assoc]
          rfl⟩
      | nil =>
        rw [VerifyDiff_exec_ok env diff vopts hd he hf] at h
        obtain ⟨call, _, hres, _⟩ := rediffLoop_err env _ _ _ _ e h
        exact verifyTable_message env _ _ _ e hres

/-- Witness of C3 on a run whose workspace execution returns an error. -/
theorem VerifyDiff_error_message_witness :
    (VerifyDiff (demoEnv [] [] (some (.errorString "connection refused")))
        ⟨[alterSupported]⟩ (demoOpts true)).err
      = some (.errorString "Diff verification failure: connection refused") ∧
    ∃ s : String,
      (GoError.errorString "Diff verification failure: connection refused").Error
          (demoEnv [] [] (some (.errorString "connection refused")))
        = "Diff verification failure" ++ s :=
  ⟨by decide,
    VerifyDiff_error_message (demoEnv [] [] (some (.errorString "connection refused")))
      ⟨[alterSupported]⟩ (demoOpts true) _ (by decide)⟩

/-- C4: when at least one diff is enqueued, `workspace.ExecLogicalSchema` is
called once on the blueprint; if it returns an error `e`, `VerifyDiff` returns
an error with message "Diff verification failure: " followed by the message of
`e`; otherwise, if the workspace schema has a non-empty `Failures` list,
`VerifyDiff` returns an error with message "Diff verification failure: "
followed by the message of the first failure.  In both cases no table is
re-diffed and no diff is marked supported. -/
theorem VerifyDiff_workspace_failure (env : Env) (diff : SchemaDiff) (vopts : VerifierOptions)
    (henq : ∃ td ∈ diff.TableDiffs, td.Typ = .DiffTypeAlter ∧ enqueued env vopts td = true) :
    (VerifyDiff env diff vopts).execCalls
        = [((collected env diff vopts).logicalSchema, vopts.WorkspaceOptions)] ∧
    (∀ e, (wsResult env diff vopts).2 = some e →
      (VerifyDiff env diff vopts).err
          = some (.errorString ("Diff verification failure: " ++ e.Error env)) ∧
        (VerifyDiff env diff vopts).verifyCalls = [] ∧
        (VerifyDiff env diff vopts).marked = []) ∧
    (∀ f fs, (wsResult env diff vopts).2 = none →
      (wsResult env diff vopts).1.Failures = f :: fs →
      (VerifyDiff env diff vopts).err
          = some (.errorString ("Diff verification failure: " ++ f.Error env)) ∧
        (VerifyDiff env diff vopts).verifyCalls = [] ∧
        (VerifyDiff env diff vopts).marked = []) := by
  have hd := desiredTables_ne_nil env diff vopts henq
  refine ⟨?_, ?_, ?_⟩
  · cases he : (wsResult env diff vopts).2 with
    | some e => rw [VerifyDiff_exec_error env diff vopts hd e he]
    | none =>
      cases hf : (wsResult env diff vopts).1.Failures with
      | cons f fs => rw [VerifyDiff_exec_failure env diff vopts hd f fs he hf]
      | nil => rw [VerifyDiff_exec_ok env diff vopts hd he hf]
  · intro e he
    rw [VerifyDiff_exec_error env diff vopts hd e he]
    exact ⟨rfl, rfl, rfl⟩
  · intro f fs he hf
    rw [VerifyDiff_exec_failure env diff vopts hd f fs he hf]
    exact ⟨rfl, rfl, rfl⟩

/-- Witness of C4: a workspace with two statement failures; the first one is
reported. -/
theorem VerifyDiff_workspace_failure_witness :
    (∃ td ∈ [alterSupported], td.Typ = .DiffTypeAlter ∧
      enqueued (demoEnv [] [.errorString "first", .errorString "second"] none) (demoOpts true) td
        = true) ∧
    (VerifyDiff (demoEnv [] [.errorString "first", .errorString "second"] none)
        ⟨[alterSupported]⟩ (demoOpts true)).err
      = some (.errorString "Diff verification failure: first") :=
  ⟨by decide,
    ((VerifyDiff_workspace_failure (demoEnv [] [.errorString "first", .errorString "second"] none)
      ⟨[alterSupported]⟩ (demoOpts true) (by decide)).2.2
        (.errorString "first") [.errorString "second"] rfl rfl).1⟩

/-- C8: `verifyTable(actual, desired, mods)` returns nil if and only if the
render of `NewAlterTable(actual, desired)` under `mods` yields a nil error and
an empty statement; a non-empty statement, an unsupported-diff error and any
other error each make it return a non-nil error. -/
theorem verifyTable_nil_iff (env : Env) (actual : Option Table) (desired : Table)
    (mods : StatementModifiers) :
    (verifyTable env actual desired mods = none ↔
      env.Statement (env.NewAlterTable actual (some desired)) mods = ("", none)) ∧
    ((env.Statement (env.NewAlterTable actual (some desired)) mods).1 ≠ "" →
      verifyTable env actual desired mods ≠ none) ∧
    (IsUnsupportedDiff (env.Statement (env.NewAlterTable actual (some desired)) mods).2 = true →
      verifyTable env actual desired mods ≠ none) ∧
    ((env.Statement (env.NewAlterTable actual (some desired)) mods).2 ≠ none →
      verifyTable env actual desired mods ≠ none) := by
  have main : verifyTable env actual desired mods = none ↔
      env.Statement (env.NewAlterTable actual (some desired)) mods = ("", none) := by
    rw [Prod.ext_iff]
    cases he : (env.Statement (env.NewAlterTable actual (some desired)) mods).2 with
    | some e1 =>
      cases hu : errorsAs (some e1) with
      | some u =>
        rw [verifyTable_unsupported env actual desired mods u (by rw [he]; exact hu)]
        simp
      | none =>
        rw [verifyTable_other env actual desired mods e1 he hu]
        simp
    | none =>
      by_cases hs : (env.Statement (env.NewAlterTable actual (some desired)) mods).1 = ""
      · rw [verifyTable_clean env actual desired mods he hs]
        simp [hs]
      · rw [verifyTable_nonempty env actual desired mods he hs]
        simp [hs]
  refine ⟨main, ?_, ?_, ?_⟩
  · intro hs hn
    rw [main.mp hn] at hs
    exact hs rfl
  · intro hu hn
    rw [main.mp hn] at hu
    simp [IsUnsupportedDiff, errorsAs] at hu
  · intro he hn
    rw [main.mp hn] at he
    exact he rfl

/-- Witness of C8: a second diff of a table that still differs from the desired
one renders a statement, and `verifyTable` returns an error. -/
theorem verifyTable_nil_iff_witness :
    ((demoEnv [] [] none).Statement ((demoEnv [] [] none).NewAlterTable (some tableOld)
        (some tableNew)) (relaxMods (strictMods (demoEnv [] [] none) (demoOpts true)))).1 ≠ "" ∧
      verifyTable (demoEnv [] [] none) (some tableOld) tableNew
        (relaxMods (strictMods (demoEnv [] [] none) (demoOpts true))) ≠ none :=
  ⟨by decide,
    (verifyTable_nil_iff (demoEnv [] [] none) (some tableOld) tableNew
      (relaxMods (strictMods (demoEnv [] [] none) (demoOpts true)))).2.1 (by decide)⟩

/-- C9: the strict rendering policy built by `VerifyDiff`, under which the first
loop renders every alter diff, has `NextAutoInc` always, `Partitioning`
permissive, `AllowUnsafe` and the four strict flags and `SkipPreDropAlters`
true, the flavor of the options, and the algorithm clause "copy" unless the
flavor matches MySQL 5.5, in which case the clause is empty and every other
field is the same. -/
theorem strictMods_policy (env : Env) (diff : SchemaDiff) (vopts : VerifierOptions) :
    strictMods env vopts =
      { NextAutoInc := .NextAutoIncAlways
        Partitioning := .PartitioningPermissive
        AllowUnsafe := true
        AlgorithmClause := if env.Matches vopts.Flavor FlavorMySQL55 = true then "" else "copy"
        StrictIndexOrder := true
        StrictCheckOrder := true
        StrictForeignKeyNaming := true
        StrictColumnDefinition := true
        SkipPreDropAlters := true
        Flavor := vopts.Flavor } ∧
    collected env diff vopts =
      (diff.FilteredTableDiffs .DiffTypeAlter).foldl
        (fun c p => collectStep env vopts
          { NextAutoInc := .NextAutoIncAlways
            Partitioning := .PartitioningPermissive
            AllowUnsafe := true
            AlgorithmClause := if env.Matches vopts.Flavor FlavorMySQL55 = true then "" else "copy"
            StrictIndexOrder := true
            StrictCheckOrder := true
            StrictForeignKeyNaming := true
            StrictColumnDefinition := true
            SkipPreDropAlters := true
            Flavor := vopts.Flavor } c p) (collectInit vopts) := by
  have h : strictMods env vopts =
      { NextAutoInc := .NextAutoIncAlways
        Partitioning := .PartitioningPermissive
        AllowUnsafe := true
        AlgorithmClause := if env.Matches vopts.Flavor FlavorMySQL55 = true then "" else "copy"
        StrictIndexOrder := true
        StrictCheckOrder := true
        StrictForeignKeyNaming := true
        StrictColumnDefinition := true
        SkipPreDropAlters := true
        Flavor := vopts.Flavor } := by
    unfold strictMods
    by_cases hm : env.Matches vopts.Flavor FlavorMySQL55 = true <;> simp [hm]
  refine ⟨h, ?_⟩
  rw [collected_eq_foldl, h]

/-- C10: the modifiers passed to `verifyTable` for the second diff equal the
strict rendering policy of the same run in every field except
`StrictColumnDefinition`, which is false, and `AlgorithmClause`, which is the
empty string, for every flavor. -/
theorem VerifyDiff_relaxed_mods (env : Env) (diff : SchemaDiff) (vopts : VerifierOptions)
    (call : VerifyCall) (h : call ∈ (VerifyDiff env diff vopts).verifyCalls) :
    call.mods =
      { strictMods env vopts with StrictColumnDefinition := false, AlgorithmClause := "" } := by
  by_cases hd : (collected env diff vopts).desiredTables = []
  · rw [(VerifyDiff_of_desired_nil env diff vopts hd).2.2.1] at h
    simp at h
  · cases he : (wsResult env diff vopts).2 with
    | some e1 =>
      rw [VerifyDiff_exec_error env diff vopts hd e1 he] at h
      simp at h
    | none =>
      cases hf : (wsResult env diff vopts).1.Failures with
      | cons f fs =>
        rw [VerifyDiff_exec_failure env diff vopts hd f fs he hf] at h
        simp at h
      | nil =>
        rw [VerifyDiff_exec_ok env diff vopts hd he hf] at h
        exact (rediffLoop_calls env _ _ _ _ call h).1

/-- Witness of C10: the one second diff of a run on a supported alter diff. -/
theorem VerifyDiff_relaxed_mods_witness :
    (⟨"t", some tableNew, tableNew,
        relaxMods (strictMods (demoEnv [tableNew] [] none) (demoOpts true))⟩ : VerifyCall)
      ∈ (VerifyDiff (demoEnv [tableNew] [] none) ⟨[alterSupported]⟩ (demoOpts true)).verifyCalls ∧
    (relaxMods (strictMods (demoEnv [tableNew] [] none) (demoOpts true))) =
      { strictMods (demoEnv [tableNew] [] none) (demoOpts true) with
        StrictColumnDefinition := false, AlgorithmClause := "" } :=
  ⟨by decide,
    VerifyDiff_relaxed_mods (demoEnv [tableNew] [] none) ⟨[alterSupported]⟩ (demoOpts true)
      ⟨"t", some tableNew, tableNew,
        relaxMods (strictMods (demoEnv [tableNew] [] none) (demoOpts true))⟩ (by decide)⟩

/-! ## Dependence on the environment -/

theorem GoError.Error_congr (env env' : Env) (hT : env'.ErrorText = env.ErrorText)
    (e : GoError) : e.Error env' = e.Error env := by
  cases e <;> simp [GoError.Error, hT]

theorem FmtArg.text_congr (env env' : Env) (hT : env'.ErrorText = env.ErrorText)
    (a : FmtArg) : a.text env' = a.text env := by
  cases a <;> simp [FmtArg.text, GoError.Error_congr env env' hT]

theorem doPrintf_congr (env env' : Env) (hF : env'.fmtOther = env.fmtOther)
    (hT : env'.ErrorText = env.ErrorText) (n : Nat) :
    ∀ (f : List Char), f.length ≤ n → ∀ args : List FmtArg,
      doPrintf env' f args = doPrintf env f args := by
  induction n with
  | zero =>
    intro f hf args
    have : f = [] := List.length_eq_zero.mp (Nat.le_zero.mp hf)
    subst this
    cases args <;> simp [doPrintf, hF]
  | succ n ih =>
    intro f hf args
    cases f with
    | nil => cases args <;> simp [doPrintf, hF]
    | cons c rest =>
      have hrest : rest.length ≤ n := by simpa using hf
      rw [doPrintf.eq_def env', doPrintf.eq_def env]
      simp only
      by_cases hc : c = '%'
      swap
      · simp only [ne_eq, hc, not_false_eq_true, if_true, ih rest hrest args]
      · simp only [ne_eq, hc, not_true_eq_false, if_false]
        cases rest with
        | nil => simp only [hF]
        | cons v rest2 =>
          have hrest2 : rest2.length ≤ n := by
            simp only [List.length_cons] at hrest
            omega
          simp only
          by_cases hv : v = '%'
          · simp only [hv, if_true, ih rest2 hrest2 args]
          · simp only [hv, if_false]
            cases args with
            | nil => simp only [hF]
            | cons a as =>
              simp only
              by_cases hs : v = 's' ∨ v = 'v'
              · simp only [hs, if_true, ih rest2 hrest2 as, FmtArg.text_congr env env' hT]
              · simp only [hs, if_false]
                by_cases hw : v = 'w'
                · simp only [hw, if_true]
                  cases a with
                  | str x => simp only [hF]
                  | err e =>
                    simp only [ih rest2 hrest2 as, FmtArg.text_congr env env' hT]
                · simp only [hw, if_false, hF]

theorem Errorf_congr (env env' : Env) (hF : env'.fmtOther = env.fmtOther)
    (hT : env'.ErrorText = env.ErrorText) (format : String) (args : List FmtArg) :
    Errorf env' format args = Errorf env format args := by
  unfold Errorf
  rw [doPrintf_congr env env' hF hT _ format.data (Nat.le_refl _) args]

theorem verifyTable_congr (env env' : Env) (hF : env'.fmtOther = env.fmtOther)
    (hT : env'.ErrorText = env.ErrorText) (hX : env'.ExtendedError = env.ExtendedError)
    (hN : env'.NewAlterTable = env.NewAlterTable) (mods : StatementModifiers)
    (hS : ∀ td, env'.Statement td mods = env.Statement td mods)
    (actual : Option Table) (desired : Table) :
    verifyTable env' actual desired mods = verifyTable env actual desired mods := by
  unfold verifyTable
  simp only [hN, hS, hX, Errorf_congr env env' hF hT]

theorem rediffLoop_congr (env env' : Env) (hF : env'.fmtOther = env.fmtOther)
    (hT : env'.ErrorText = env.ErrorText) (hX : env'.ExtendedError = env.ExtendedError)
    (hN : env'.NewAlterTable = env.NewAlterTable) (mods : StatementModifiers)
    (hS : ∀ td, env'.Statement td mods = env.Statement td mods)
    (actualTables : String → Option Table) (unsup : List (String × Nat))
    (ord : List (String × Table)) :
    rediffLoop env' actualTables unsup mods ord = rediffLoop env actualTables unsup mods ord := by
  induction ord with
  | nil => simp [rediffLoop]
  | cons p rest ih =>
    obtain ⟨name, desired⟩ := p
    rw [rediffLoop_cons, rediffLoop_cons, ih,
      verifyTable_congr env env' hF hT hX hN mods hS]

theorem collectStep_congr (env env' : Env) (vopts : VerifierOptions)
    (mods : StatementModifiers)
    (hS : ∀ td, (env'.Statement (some td) mods).1 = (env.Statement (some td) mods).1 ∧
      IsUnsupportedDiff (env'.Statement (some td) mods).2
        = IsUnsupportedDiff (env.Statement (some td) mods).2)
    (c : Collected) (p : Nat × TableDiff) :
    collectStep env' vopts mods c p = collectStep env vopts mods c p := by
  have key : ∀ e : Env, collectStep e vopts mods c p =
      if (e.Statement (some p.2) mods).1 = "" then c
      else if IsUnsupportedDiff (e.Statement (some p.2) mods).2 = true then
        enqueue { c with unsupportedTables := mapSet c.unsupportedTables p.2.From.Name p.1 }
          p.2 (e.Statement (some p.2) mods).1
      else if vopts.AllAlters = false then c
      else enqueue c p.2 (e.Statement (some p.2) mods).1 := by
    intro e
    unfold collectStep
    by_cases hu : IsUnsupportedDiff (e.Statement (some p.2) mods).2 = true
    · simp [hu, IsUnsupportedDiff_ne_none _ hu]
    · simp [hu]
  rw [key env', key env, (hS p.2).1, (hS p.2).2]

theorem collect_congr (env env' : Env) (vopts : VerifierOptions) (mods : StatementModifiers)
    (hS : ∀ td, (env'.Statement (some td) mods).1 = (env.Statement (some td) mods).1 ∧
      IsUnsupportedDiff (env'.Statement (some td) mods).2
        = IsUnsupportedDiff (env.Statement (some td) mods).2)
    (l : List (Nat × TableDiff)) :
    collect env' vopts mods l = collect env vopts mods l := by
  unfold collect
  have hfun : collectStep env' vopts mods = collectStep env vopts mods := by
    funext c p
    exact collectStep_congr env env' vopts mods hS c p
  rw [hfun]

/-- The outcome of `VerifyDiff` depends on the errors of the strict renders
only through their being unsupported-diff errors or not. -/
theorem VerifyDiff_congr (env env' : Env) (diff : SchemaDiff) (vopts : VerifierOptions)
    (hM : env'.Matches = env.Matches) (hN : env'.NewAlterTable = env.NewAlterTable)
    (hE : env'.ExecLogicalSchema = env.ExecLogicalSchema)
    (hX : env'.ExtendedError = env.ExtendedError) (hT : env'.ErrorText = env.ErrorText)
    (hF : env'.fmtOther = env.fmtOther) (hO : env'.mapOrder = env.mapOrder)
    (hS1 : ∀ td, (env'.Statement (some td) (strictMods env vopts)).1
          = (env.Statement (some td) (strictMods env vopts)).1 ∧
        IsUnsupportedDiff (env'.Statement (some td) (strictMods env vopts)).2
          = IsUnsupportedDiff (env.Statement (some td) (strictMods env vopts)).2)
    (hS2 : ∀ td, env'.Statement td (relaxMods (strictMods env vopts))
        = env.Statement td (relaxMods (strictMods env vopts))) :
    VerifyDiff env' diff vopts = VerifyDiff env diff vopts := by
  have hmods : strictMods env' vopts = strictMods env vopts := by
    unfold strictMods
    rw [hM]
  unfold VerifyDiff
  simp only [hmods, collect_congr env env' vopts _ hS1, hE, hO,
    rediffLoop_congr env env' hF hT hX hN _ hS2, Errorf_congr env env' hF hT,
    GoError.Error_congr env env' hT]

/-! ## The second loop inside `VerifyDiff` -/

theorem VerifyDiff_loop (env : Env) (diff : SchemaDiff) (vopts : VerifierOptions)
    (he : (wsResult env diff vopts).2 = none)
    (hf : (wsResult env diff vopts).1.Failures = []) :
    (VerifyDiff env diff vopts).err =
      (rediffLoop env (wsResult env diff vopts).1.TablesByName
        (collected env diff vopts).unsupportedTables (relaxMods (strictMods env vopts))
        (rangeOrder env.mapOrder (collected env diff vopts).desiredTables)).1 ∧
    (VerifyDiff env diff vopts).verifyCalls =
      (rediffLoop env (wsResult env diff vopts).1.TablesByName
        (collected env diff vopts).unsupportedTables (relaxMods (strictMods env vopts))
        (rangeOrder env.mapOrder (collected env diff vopts).desiredTables)).2.1 ∧
    (VerifyDiff env diff vopts).marked =
      (rediffLoop env (wsResult env diff vopts).1.TablesByName
        (collected env diff vopts).unsupportedTables (relaxMods (strictMods env vopts))
        (rangeOrder env.mapOrder (collected env diff vopts).desiredTables)).2.2 := by
  by_cases hd : (collected env diff vopts).desiredTables = []
  · obtain ⟨h1, _, h3, h4⟩ := VerifyDiff_of_desired_nil env diff vopts hd
    rw [h1, h3, h4, hd]
    cases env.mapOrder <;> simp [rangeOrder, rediffLoop]
  · rw [VerifyDiff_exec_ok env diff vopts hd he hf]
    exact ⟨rfl, rfl, rfl⟩

theorem mem_rangeOrder_desiredTables (env : Env) (diff : SchemaDiff) (vopts : VerifierOptions)
    (p : String × Table) :
    p ∈ rangeOrder env.mapOrder (collected env diff vopts).desiredTables ↔
      p ∈ (collected env diff vopts).desiredTables :=
  (rangeOrder_perm _ _).mem_iff

/-! ## The claims, continued -/

/-- C6 (counterexample): a strict render that returns a statement together with
an error that is not an unsupported-diff error does not make `VerifyDiff` fail,
for either value of `AllAlters`; with `AllAlters` true the diff is enqueued
with its two statements. -/
theorem VerifyDiff_render_error_counterexample :
    (renderErrorEnv [tableNew]).Statement (some alterSupported)
        (strictMods (renderErrorEnv [tableNew]) (demoOpts false))
      = ("ALTER TABLE t MODIFY COLUMN c bigint", some (.errorString "render failed")) ∧
    IsUnsupportedDiff (some (.errorString "render failed")) = false ∧
    (VerifyDiff (renderErrorEnv [tableNew]) ⟨[alterSupported]⟩ (demoOpts false)).err = none ∧
    (VerifyDiff (renderErrorEnv [tableNew]) ⟨[alterSupported]⟩ (demoOpts false)).submitted = [] ∧
    (VerifyDiff (renderErrorEnv [tableNew]) ⟨[alterSupported]⟩ (demoOpts true)).err = none ∧
    (VerifyDiff (renderErrorEnv [tableNew]) ⟨[alterSupported]⟩ (demoOpts true)).submitted.length
      = 2 := by
  decide

/-- C6 (amended): for both values of `AllAlters`, an error of a strict render
that is not an unsupported-diff error is ignored: the outcome of `VerifyDiff`
(error, blueprint, workspace call, second diffs, marked diffs) is the same as
when each such render returns a nil error with the same statement. -/
theorem VerifyDiff_ignores_render_errors (env : Env) (diff : SchemaDiff)
    (vopts : VerifierOptions) :
    VerifyDiff (dropRenderErrors env vopts) diff vopts = VerifyDiff env diff vopts ∧
    ∀ td : TableDiff,
      ((dropRenderErrors env vopts).Statement (some td) (strictMods env vopts)).1
          = (env.Statement (some td) (strictMods env vopts)).1 ∧
      (((dropRenderErrors env vopts).Statement (some td) (strictMods env vopts)).2 = none ∨
        ((dropRenderErrors env vopts).Statement (some td) (strictMods env vopts)).2
            = (env.Statement (some td) (strictMods env vopts)).2 ∧
          IsUnsupportedDiff (env.Statement (some td) (strictMods env vopts)).2 = true) := by
  have hneq : relaxMods (strictMods env vopts) ≠ strictMods env vopts := by
    intro h
    have h1 := congrArg StatementModifiers.StrictColumnDefinition h
    unfold strictMods at h1
    by_cases hm : env.Matches vopts.Flavor FlavorMySQL55 = true <;>
      simp [relaxMods, hm] at h1
  refine ⟨?_, ?_⟩
  · apply VerifyDiff_congr env (dropRenderErrors env vopts) diff vopts rfl rfl rfl rfl rfl rfl rfl
    · intro td
      by_cases hu : IsUnsupportedDiff (env.Statement (some td) (strictMods env vopts)).2 = true
      · simp [dropRenderErrors, hu]
      · have hu1 : IsUnsupportedDiff (env.Statement (some td) (strictMods env vopts)).2
            = false := by simpa using hu
        have hn : IsUnsupportedDiff none = false := rfl
        simp [dropRenderErrors, hu1, hn]
    · intro td
      simp [dropRenderErrors, hneq]
  · intro td
    by_cases hu : IsUnsupportedDiff (env.Statement (some td) (strictMods env vopts)).2 = true
    · simp [dropRenderErrors, hu]
    · simp [dropRenderErrors, hu]

/-- C7 (counterexample): the workspace execution succeeds, the second diff of
the enqueued table renders a non-empty ALTER statement, an unsupported diff is
recorded for the table, and `VerifyDiff` returns nil. -/
theorem VerifyDiff_nonempty_rediff_counterexample :
    (wsResult (demoEnv [tableOld] [] none) ⟨[alterUnsupported]⟩ (demoOpts true)).2 = none ∧
    (wsResult (demoEnv [tableOld] [] none) ⟨[alterUnsupported]⟩ (demoOpts true)).1.Failures
      = [] ∧
    (collected (demoEnv [tableOld] [] none) ⟨[alterUnsupported]⟩ (demoOpts true)).desiredTables
      = [("t", tableNew)] ∧
    (demoEnv [tableOld] [] none).Statement
        ((demoEnv [tableOld] [] none).NewAlterTable
          ((wsResult (demoEnv [tableOld] [] none) ⟨[alterUnsupported]⟩
            (demoOpts true)).1.TablesByName "t") (some tableNew))
        (relaxMods (strictMods (demoEnv [tableOld] [] none) (demoOpts true)))
      = ("ALTER TABLE t MODIFY COLUMN c bigint", none) ∧
    (VerifyDiff (demoEnv [tableOld] [] none) ⟨[alterUnsupported]⟩ (demoOpts true)).err
      = none := by
  decide

/-- C7 (amended): whenever the workspace execution succeeds and the second diff
of an enqueued table renders to a non-empty ALTER statement, `VerifyDiff`
returns a failure if no unsupported diff is recorded under the name of the
table; if one is recorded, the non-empty second diff is tolerated: the recorded
diff is not marked supported and every error `VerifyDiff` returns is the second
diff of another table, one with no unsupported diff recorded. -/
theorem VerifyDiff_nonempty_rediff (env : Env) (diff : SchemaDiff) (vopts : VerifierOptions)
    (he : (wsResult env diff vopts).2 = none)
    (hf : (wsResult env diff vopts).1.Failures = [])
    (name : String) (desired : Table)
    (hmem : (name, desired) ∈ (collected env diff vopts).desiredTables)
    (hstmt : (env.Statement
      (env.NewAlterTable ((wsResult env diff vopts).1.TablesByName name) (some desired))
      (relaxMods (strictMods env vopts))).1 ≠ "") :
    (mapGet (collected env diff vopts).unsupportedTables name = none →
      (VerifyDiff env diff vopts).err ≠ none) ∧
    (∀ i, mapGet (collected env diff vopts).unsupportedTables name = some i →
      (∀ e, (VerifyDiff env diff vopts).err = some e →
        ∃ call ∈ (VerifyDiff env diff vopts).verifyCalls, call.name ≠ name ∧
          call.result env = some e ∧
          mapGet (collected env diff vopts).unsupportedTables call.name = none)) := by
  obtain ⟨herr, hcalls, _⟩ := VerifyDiff_loop env diff vopts he hf
  have hfail : verifyTable env ((wsResult env diff vopts).1.TablesByName name) desired
      (relaxMods (strictMods env vopts)) ≠ none :=
    verifyTable_ne_none_of_nonempty env _ desired _ hstmt
  refine ⟨?_, ?_⟩
  · intro hnone
    rw [herr]
    exact rediffLoop_ne_none env _ _ _ _ (name, desired)
      ((mem_rangeOrder_desiredTables env diff vopts _).mpr hmem) hfail hnone
  · intro i hi e hret
    rw [herr] at hret
    rw [hcalls]
    obtain ⟨call, hc, hres, hnone⟩ := rediffLoop_err env _ _ _ _ e hret
    refine ⟨call, hc, ?_, hres, hnone⟩
    intro heq
    rw [heq, hi] at hnone
    cases hnone

/-- Witness of C7 (amended): a supported diff whose ALTER leaves the workspace
table unchanged is reported. -/
theorem VerifyDiff_nonempty_rediff_witness :
    (wsResult (demoEnv [tableOld] [] none) ⟨[alterSupported]⟩ (demoOpts true)).2 = none ∧
    (wsResult (demoEnv [tableOld] [] none) ⟨[alterSupported]⟩ (demoOpts true)).1.Failures
      = [] ∧
    ("t", tableNew) ∈
      (collected (demoEnv [tableOld] [] none) ⟨[alterSupported]⟩ (demoOpts true)).desiredTables ∧
    mapGet (collected (demoEnv [tableOld] [] none) ⟨[alterSupported]⟩
      (demoOpts true)).unsupportedTables "t" = none ∧
    (VerifyDiff (demoEnv [tableOld] [] none) ⟨[alterSupported]⟩ (demoOpts true)).err ≠ none :=
  ⟨by decide, by decide, by decide, by decide,
    (VerifyDiff_nonempty_rediff (demoEnv [tableOld] [] none) ⟨[alterSupported]⟩ (demoOpts true)
      (by decide) (by decide) "t" tableNew (by decide) (by decide)).1 (by decide)⟩

/-! ## Promotion of unsupported diffs -/

theorem mapGet_unsupportedTables (env : Env) (diff : SchemaDiff) (vopts : VerifierOptions)
    (n : String) (i : Nat)
    (h : mapGet (collected env diff vopts).unsupportedTables n = some i) :
    ∃ td, diff.TableDiffs.get? i = some td ∧ td.Typ = .DiffTypeAlter ∧ td.From.Name = n ∧
      recordedUnsupported env vopts td = true := by
  rw [collected_eq_foldl] at h
  rcases mapGet_unsupportedTables_foldl env vopts _ _ n i h with h1 | ⟨td, hmem, hn, hr⟩
  · simp [collectInit, mapGet] at h1
  · obtain ⟨h2, _, h4⟩ := mem_FilteredTableDiffs diff _ (i, td) hmem
    exact ⟨td, h2, h4, hn, hr⟩

theorem unsupportedTables_inj (env : Env) (diff : SchemaDiff) (vopts : VerifierOptions)
    (n n' : String) (i : Nat)
    (h : mapGet (collected env diff vopts).unsupportedTables n = some i)
    (h' : mapGet (collected env diff vopts).unsupportedTables n' = some i) : n = n' := by
  obtain ⟨td, h1, _, h3, _⟩ := mapGet_unsupportedTables env diff vopts n i h
  obtain ⟨td', h1', _, h3', _⟩ := mapGet_unsupportedTables env diff vopts n' i h'
  rw [h1] at h1'
  cases h1'
  rw [← h3, ← h3']

theorem VerifyDiff_trace_nil_or_ok (env : Env) (diff : SchemaDiff) (vopts : VerifierOptions) :
    ((VerifyDiff env diff vopts).verifyCalls = [] ∧ (VerifyDiff env diff vopts).marked = []) ∨
      ((wsResult env diff vopts).2 = none ∧ (wsResult env diff vopts).1.Failures = []) := by
  by_cases hd : (collected env diff vopts).desiredTables = []
  · obtain ⟨_, _, h3, h4⟩ := VerifyDiff_of_desired_nil env diff vopts hd
    exact Or.inl ⟨h3, h4⟩
  · cases he : (wsResult env diff vopts).2 with
    | some e =>
      rw [VerifyDiff_exec_error env diff vopts hd e he]
      exact Or.inl ⟨rfl, rfl⟩
    | none =>
      cases hf : (wsResult env diff vopts).1.Failures with
      | cons f fs =>
        rw [VerifyDiff_exec_failure env diff vopts hd f fs he hf]
        exact Or.inl ⟨rfl, rfl⟩
      | nil => exact Or.inr ⟨rfl, rfl⟩

theorem nodup_keys_rangeOrder (env : Env) (diff : SchemaDiff) (vopts : VerifierOptions) :
    ((rangeOrder env.mapOrder (collected env diff vopts).desiredTables).map Prod.fst).Nodup :=
  ((rangeOrder_perm _ _).map Prod.fst).nodup_iff.mpr (nodup_keys_desiredTables env diff vopts)

theorem rediffLoop_names_nodup (env : Env) (actualTables : String → Option Table)
    (unsup : List (String × Nat)) (mods : StatementModifiers) (ord : List (String × Table))
    (h : (ord.map Prod.fst).Nodup) :
    ((rediffLoop env actualTables unsup mods ord).2.1.map (fun call => call.name)).Nodup := by
  obtain ⟨processed, rest, h1, h2, _⟩ := rediffLoop_processed env actualTables unsup mods ord
  have h3 : (rediffLoop env actualTables unsup mods ord).2.1.map (fun call => call.name)
      = processed.map Prod.fst := by
    rw [← h2, List.map_map]
    rfl
  rw [h3]
  rw [h1, List.map_append] at h
  exact (List.nodup_append.mp h).1

/-- C5: the diffs `VerifyDiff` marks supported are exactly those recorded in
`unsupportedTables` for a processed name whose second diff is clean, which
happens only after a successful workspace execution, each at most once and each
name being processed at most once.  After a successful workspace execution the
processed names are entries of `desiredTables` (all of them when nil is
returned), and for a processed name: (1) if the second diff is clean and an
unsupported diff is recorded for the name, that diff is marked supported; (2) if
the second diff fails and an unsupported diff is recorded, the diff is not
marked and a returned error is the second diff of a name with no unsupported
diff recorded; (3) if the second diff fails and no unsupported diff is recorded,
`VerifyDiff` returns that error. -/
theorem VerifyDiff_promotion (env : Env) (diff : SchemaDiff) (vopts : VerifierOptions) :
    (∀ i ∈ (VerifyDiff env diff vopts).marked,
      ((wsResult env diff vopts).2 = none ∧ (wsResult env diff vopts).1.Failures = []) ∧
      (∃ call ∈ (VerifyDiff env diff vopts).verifyCalls, call.result env = none ∧
        mapGet (collected env diff vopts).unsupportedTables call.name = some i) ∧
      (∃ td, diff.TableDiffs.get? i = some td ∧ td.Typ = .DiffTypeAlter ∧
        recordedUnsupported env vopts td = true)) ∧
    (VerifyDiff env diff vopts).marked.Nodup ∧
    ((VerifyDiff env diff vopts).verifyCalls.map (fun call => call.name)).Nodup ∧
    ((wsResult env diff vopts).2 = none → (wsResult env diff vopts).1.Failures = [] →
      (∀ call ∈ (VerifyDiff env diff vopts).verifyCalls,
        (call.name, call.desired) ∈ (collected env diff vopts).desiredTables ∧
        call.result env = secondDiff env diff vopts call.name call.desired) ∧
      ((VerifyDiff env diff vopts).err = none →
        ∀ p ∈ (collected env diff vopts).desiredTables,
          ∃ call ∈ (VerifyDiff env diff vopts).verifyCalls,
            call.name = p.1 ∧ call.desired = p.2) ∧
      (∀ call ∈ (VerifyDiff env diff vopts).verifyCalls, ∀ i, call.result env = none →
        mapGet (collected env diff vopts).unsupportedTables call.name = some i →
        i ∈ (VerifyDiff env diff vopts).marked) ∧
      (∀ call ∈ (VerifyDiff env diff vopts).verifyCalls, ∀ i, call.result env ≠ none →
        mapGet (collected env diff vopts).unsupportedTables call.name = some i →
        i ∉ (VerifyDiff env diff vopts).marked) ∧
      (∀ e, (VerifyDiff env diff vopts).err = some e →
        ∃ call ∈ (VerifyDiff env diff vopts).verifyCalls, call.result env = some e ∧
          mapGet (collected env diff vopts).unsupportedTables call.name = none) ∧
      (∀ call ∈ (VerifyDiff env diff vopts).verifyCalls, ∀ e, call.result env = some e →
        mapGet (collected env diff vopts).unsupportedTables call.name = none →
        (VerifyDiff env diff vopts).err = some e)) := by
  have hok : (wsResult env diff vopts).2 = none → (wsResult env diff vopts).1.Failures = [] →
      (∀ i ∈ (VerifyDiff env diff vopts).marked,
        ∃ call ∈ (VerifyDiff env diff vopts).verifyCalls, call.result env = none ∧
          mapGet (collected env diff vopts).unsupportedTables call.name = some i) ∧
      (VerifyDiff env diff vopts).marked.Nodup ∧
      ((VerifyDiff env diff vopts).verifyCalls.map (fun call => call.name)).Nodup := by
    intro he hf
    obtain ⟨_, hcalls, hmarked⟩ := VerifyDiff_loop env diff vopts he hf
    rw [hcalls, hmarked]
    refine ⟨fun i hi => (rediffLoop_marked env _ _ _ _ i).mp hi, ?_, ?_⟩
    · refine (rediffLoop_marked_sublist env _ _ _ _).nodup ?_
      exact List.Nodup.filterMap
        (fun a a' b hb hb' => unsupportedTables_inj env diff vopts a a' b hb hb')
        (nodup_keys_rangeOrder env diff vopts)
    · exact rediffLoop_names_nodup env _ _ _ _ (nodup_keys_rangeOrder env diff vopts)
  refine ⟨?_, ?_, ?_, ?_⟩
  · intro i hi
    rcases VerifyDiff_trace_nil_or_ok env diff vopts with ⟨_, h2⟩ | ⟨he, hf⟩
    · rw [h2] at hi
      simp at hi
    · obtain ⟨call, hc, hres, hget⟩ := (hok he hf).1 i hi
      obtain ⟨td, h1, h2, _, h4⟩ := mapGet_unsupportedTables env diff vopts _ i hget
      exact ⟨⟨he, hf⟩, ⟨call, hc, hres, hget⟩, ⟨td, h1, h2, h4⟩⟩
  · rcases VerifyDiff_trace_nil_or_ok env diff vopts with ⟨_, h2⟩ | ⟨he, hf⟩
    · rw [h2]
      exact List.nodup_nil
    · exact (hok he hf).2.1
  · rcases VerifyDiff_trace_nil_or_ok env diff vopts with ⟨h1, _⟩ | ⟨he, hf⟩
    · rw [h1]
      exact List.nodup_nil
    · exact (hok he hf).2.2
  · intro he hf
    obtain ⟨hmk, _, hnames⟩ := hok he hf
    obtain ⟨herr, hcalls, hmarked⟩ := VerifyDiff_loop env diff vopts he hf
    rw [hcalls, hmarked] at hmk
    rw [hcalls] at hnames
    rw [herr, hcalls, hmarked]
    refine ⟨?_, ?_, ?_, ?_, ?_, ?_⟩
    · intro call hc
      obtain ⟨h1, h2, h3⟩ := rediffLoop_calls env _ _ _ _ call hc
      refine ⟨(mem_rangeOrder_desiredTables env diff vopts _).mp h3, ?_⟩
      unfold VerifyCall.result secondDiff
      rw [h1, h2]
    · intro hnone p hp
      obtain ⟨processed, rest, h1, h2, h3⟩ := rediffLoop_processed env
        (wsResult env diff vopts).1.TablesByName
        (collected env diff vopts).unsupportedTables (relaxMods (strictMods env vopts))
        (rangeOrder env.mapOrder (collected env diff vopts).desiredTables)
      have hrest := h3 hnone
      rw [hrest, List.append_nil] at h1
      have hp1 : p ∈ processed := by
        rw [← h1]
        exact (mem_rangeOrder_desiredTables env diff vopts _).mpr hp
      rw [← h2] at hp1
      obtain ⟨call, hc, hcp⟩ := List.mem_map.mp hp1
      refine ⟨call, hc, ?_, ?_⟩
      · rw [← hcp]
      · rw [← hcp]
    · intro call hc i hres hget
      exact (rediffLoop_marked env _ _ _ _ i).mpr ⟨call, hc, hres, hget⟩
    · intro call hc i hres hget hi
      obtain ⟨call', hc', hres', hget'⟩ := hmk i hi
      have hname : call'.name = call.name :=
        unsupportedTables_inj env diff vopts _ _ i hget' hget
      have hcall : call' = call := List.inj_on_of_nodup_map hnames hc' hc hname
      rw [hcall] at hres'
      exact hres hres'
    · intro e hret
      exact rediffLoop_err env _ _ _ _ e hret
    · intro call hc e hres hnone
      exact rediffLoop_fail env _ _ _ _ e call hc hres hnone

/-- Witness of C5: an unsupported diff whose ALTER brings the workspace table to
the desired state is marked supported, once, and nil is returned. -/
theorem VerifyDiff_promotion_witness :
    (VerifyDiff (demoEnv [tableNew] [] none) ⟨[createDiff, alterUnsupported]⟩
        (demoOpts false)).marked = [1] ∧
    (VerifyDiff (demoEnv [tableNew] [] none) ⟨[createDiff, alterUnsupported]⟩
        (demoOpts false)).err = none ∧
    ((wsResult (demoEnv [tableNew] [] none) ⟨[createDiff, alterUnsupported]⟩
        (demoOpts false)).2 = none ∧
      (wsResult (demoEnv [tableNew] [] none) ⟨[createDiff, alterUnsupported]⟩
        (demoOpts false)).1.Failures = []) ∧
    (VerifyDiff (demoEnv [tableNew] [] none) ⟨[createDiff, alterUnsupported]⟩
        (demoOpts false)).marked.Nodup :=
  ⟨by decide, by decide,
    ((VerifyDiff_promotion (demoEnv [tableNew] [] none) ⟨[createDiff, alterUnsupported]⟩
      (demoOpts false)).1 1 (by decide)).1,
    (VerifyDiff_promotion (demoEnv [tableNew] [] none) ⟨[createDiff, alterUnsupported]⟩
      (demoOpts false)).2.1⟩

/-! ## Submissions to the blueprint -/

theorem submitted_foldl (env : Env) (vopts : VerifierOptions) (l : List (Nat × TableDiff))
    (c : Collected) :
    (l.foldl (collectStep env vopts (strictMods env vopts)) c).submitted
      = c.submitted ++ submissionsSpec env vopts l := by
  induction l generalizing c with
  | nil => simp [submissionsSpec]
  | cons p l ih =>
    rw [List.foldl_cons, ih, collectStep_eq]
    by_cases he : enqueued env vopts p.2 = true
    · by_cases hu : recordedUnsupported env vopts p.2 = true <;>
        simp [he, hu, enqueue, submissionsSpec, createStatementOf, alterStatementOf]
    · simp [he, submissionsSpec]

theorem VerifyDiff_submitted (env : Env) (diff : SchemaDiff) (vopts : VerifierOptions) :
    (VerifyDiff env diff vopts).submitted = (collected env diff vopts).submitted := by
  by_cases h0 : (diff.FilteredTableDiffs .DiffTypeAlter).length = 0
  · have hnil : diff.FilteredTableDiffs .DiffTypeAlter = [] := List.length_eq_zero.mp h0
    unfold VerifyDiff collected
    simp [hnil, collect]
  · by_cases hd : (collected env diff vopts).desiredTables = []
    · unfold collected at hd
      unfold VerifyDiff collected
      simp [h0, hd]
    · rw [VerifyDiff_of_desired_ne_nil env diff vopts hd]
      split <;> rfl

theorem submissionsSpec_alter_preceded (env : Env) (vopts : VerifierOptions)
    (l : List (Nat × TableDiff)) :
    ∀ (k : Nat) (s : Statement), (submissionsSpec env vopts l).get? k = some s →
      s.Typ = .StatementTypeAlter →
      ∃ j c, j + 1 = k ∧ (submissionsSpec env vopts l).get? j = some c ∧
        c.Typ = .StatementTypeCreate ∧ c.ObjectName = s.ObjectName := by
  induction l with
  | nil =>
    intro k s h
    simp [submissionsSpec] at h
  | cons p l ih =>
    intro k s h hs
    by_cases he : enqueued env vopts p.2 = true
    · simp only [submissionsSpec, he, if_true] at h ⊢
      match k, h with
      | 0, h =>
        simp only [List.get?_cons_zero, Option.some.injEq] at h
        rw [← h] at hs
        simp [createStatementOf] at hs
      | 1, h =>
        simp only [List.get?_cons_succ, List.get?_cons_zero, Option.some.injEq] at h
        refine ⟨0, createStatementOf p.2, rfl, rfl, rfl, ?_⟩
        rw [← h]
        rfl
      | k + 2, h =>
        simp only [List.get?_cons_succ] at h
        obtain ⟨j, c, hj, hc, hty, hn⟩ := ih k s h hs
        exact ⟨j + 2, c, by omega, by simpa using hc, hty, hn⟩
    · simp only [submissionsSpec, he, if_false] at h ⊢
      exact ih k s h hs

/-! ## The blueprint handed to the workspace -/

theorem logicalSchema_foldl (env : Env) (vopts : VerifierOptions) (l : List (Nat × TableDiff))
    (c : Collected) :
    (l.foldl (collectStep env vopts (strictMods env vopts)) c).logicalSchema
      = (submissionsSpec env vopts l).foldl LogicalSchema.AddStatement c.logicalSchema := by
  induction l generalizing c with
  | nil => simp [submissionsSpec]
  | cons p l ih =>
    rw [List.foldl_cons, ih, collectStep_eq]
    by_cases he : enqueued env vopts p.2 = true
    · by_cases hu : recordedUnsupported env vopts p.2 = true <;>
        simp [he, hu, enqueue, submissionsSpec, createStatementOf, alterStatementOf]
    · simp [he, submissionsSpec]

theorem VerifyDiff_execCalls (env : Env) (diff : SchemaDiff) (vopts : VerifierOptions) :
    ∀ call ∈ (VerifyDiff env diff vopts).execCalls,
      call = ((collected env diff vopts).logicalSchema, vopts.WorkspaceOptions) := by
  intro call hcall
  by_cases hd : (collected env diff vopts).desiredTables = []
  · rw [(VerifyDiff_of_desired_nil env diff vopts hd).2.1] at hcall
    simp at hcall
  · cases he : (wsResult env diff vopts).2 with
    | some e1 =>
      rw [VerifyDiff_exec_error env diff vopts hd e1 he] at hcall
      simpa using hcall
    | none =>
      cases hf : (wsResult env diff vopts).1.Failures with
      | cons f fs =>
        rw [VerifyDiff_exec_failure env diff vopts hd f fs he hf] at hcall
        simpa using hcall
      | nil =>
        rw [VerifyDiff_exec_ok env diff vopts hd he hf] at hcall
        simpa using hcall

theorem AltersPreceded_nil : AltersPreceded [] := by
  intro pre s post h
  simp at h

theorem AltersPreceded_concat (L : List Statement) (x : Statement) (h : AltersPreceded L)
    (hx : x.Typ = .StatementTypeAlter →
      ∃ c ∈ L, c.Typ = .StatementTypeCreate ∧ c.ObjectType = x.ObjectType ∧
        c.ObjectName = x.ObjectName) :
    AltersPreceded (L ++ [x]) := by
  intro pre s post heq hs
  rcases List.eq_nil_or_concat post with hp | ⟨post1, y, hp⟩
  · subst hp
    obtain ⟨h1, h2⟩ := List.append_inj' heq rfl
    simp only [List.cons.injEq, and_true] at h2
    subst h1 h2
    exact hx hs
  · subst hp
    have heq1 : L ++ [x] = (pre ++ s :: post1) ++ [y] := by
      rw [heq]
      simp
    obtain ⟨h1, _⟩ := List.append_inj' heq1 rfl
    exact h pre s post1 h1 hs

theorem Statements_AddStatement_alter (ls : LogicalSchema) (stmt : Statement)
    (h : stmt.Typ ≠ .StatementTypeCreate) :
    (ls.AddStatement stmt).Statements = ls.Statements ++ [stmt] := by
  simp [LogicalSchema.AddStatement, h]

theorem AltersPreceded_pair (ls : LogicalSchema) (td : TableDiff) (stmt : String)
    (h : AltersPreceded ls.Statements) :
    AltersPreceded ((ls.AddStatement (createStatementOf td)).AddStatement
      (alterStatementOf td stmt)).Statements := by
  have h1 : AltersPreceded (ls.AddStatement (createStatementOf td)).Statements ∧
      ∃ c ∈ (ls.AddStatement (createStatementOf td)).Statements,
        c.Typ = .StatementTypeCreate ∧ c.ObjectType = (alterStatementOf td stmt).ObjectType ∧
          c.ObjectName = (alterStatementOf td stmt).ObjectName := by
    by_cases hdup : ls.Statements.any (fun s => decide (s.Typ = .StatementTypeCreate ∧
        s.ObjectType = (createStatementOf td).ObjectType ∧
        s.ObjectName = (createStatementOf td).ObjectName)) = true
    · have hs : (ls.AddStatement (createStatementOf td)).Statements = ls.Statements := by
        simp only [LogicalSchema.AddStatement, hdup, and_true]
        simp [createStatementOf]
      rw [hs]
      refine ⟨h, ?_⟩
      obtain ⟨c, hc, hdec⟩ := List.any_eq_true.mp hdup
      have hdec1 := of_decide_eq_true hdec
      exact ⟨c, hc, hdec1.1, hdec1.2.1, hdec1.2.2⟩
    · have hs : (ls.AddStatement (createStatementOf td)).Statements
          = ls.Statements ++ [createStatementOf td] := by
        unfold LogicalSchema.AddStatement
        rw [if_neg (fun hh => hdup hh.2)]
      rw [hs]
      refine ⟨AltersPreceded_concat _ _ h (fun hx => by simp [createStatementOf] at hx), ?_⟩
      exact ⟨createStatementOf td, by simp, rfl, rfl, rfl⟩
  rw [Statements_AddStatement_alter _ _ (by simp [alterStatementOf])]
  exact AltersPreceded_concat _ _ h1.1 (fun _ => h1.2)

theorem AltersPreceded_foldl (env : Env) (vopts : VerifierOptions) (l : List (Nat × TableDiff))
    (ls : LogicalSchema) (h : AltersPreceded ls.Statements) :
    AltersPreceded ((submissionsSpec env vopts l).foldl LogicalSchema.AddStatement
      ls).Statements := by
  induction l generalizing ls with
  | nil => simpa [submissionsSpec] using h
  | cons p l ih =>
    by_cases he : enqueued env vopts p.2 = true
    · simp only [submissionsSpec, he, if_true, List.foldl_cons]
      exact ih _ (AltersPreceded_pair ls p.2 _ h)
    · simp only [submissionsSpec, he, if_false]
      exact ih ls h

theorem alters_foldl (env : Env) (vopts : VerifierOptions) (l : List (Nat × TableDiff))
    (ls : LogicalSchema) :
    ((submissionsSpec env vopts l).foldl LogicalSchema.AddStatement ls).Statements.filter
        (fun s => decide (s.Typ = .StatementTypeAlter))
      = ls.Statements.filter (fun s => decide (s.Typ = .StatementTypeAlter))
        ++ (submissionsSpec env vopts l).filter (fun s => decide (s.Typ = .StatementTypeAlter)) := by
  induction l generalizing ls with
  | nil => simp [submissionsSpec]
  | cons p l ih =>
    by_cases he : enqueued env vopts p.2 = true
    · simp only [submissionsSpec, he, if_true, List.foldl_cons]
      rw [ih, Statements_AddStatement_alter _ _ (by simp [alterStatementOf])]
      by_cases hdup : ls.Statements.any (fun s => decide (s.Typ = .StatementTypeCreate ∧
          s.ObjectType = (createStatementOf p.2).ObjectType ∧
          s.ObjectName = (createStatementOf p.2).ObjectName)) = true
      · have hs : (ls.AddStatement (createStatementOf p.2)).Statements = ls.Statements := by
          simp only [LogicalSchema.AddStatement, hdup, and_true]
          simp [createStatementOf]
        rw [hs]
        simp [createStatementOf, alterStatementOf]
      · have hs : (ls.AddStatement (createStatementOf p.2)).Statements
            = ls.Statements ++ [createStatementOf p.2] := by
          unfold LogicalSchema.AddStatement
          rw [if_neg (fun hh => hdup hh.2)]
        rw [hs]
        simp [createStatementOf, alterStatementOf]
    · simp only [submissionsSpec, he, if_false]
      exact ih ls

/-! ## The claims about the blueprint and the result aggregate -/

/-- C16: the statements `VerifyDiff` submits to the blueprint are, in the order
of the alter diffs of the input, one CREATE statement (text
`td.From.CreateStatement`, name `td.From.Name`) immediately followed by one
ALTER statement (text the strict render, name `td.From.Name`) for exactly the
diffs whose rendered statement is non-empty and that returned an
unsupported-diff error or are processed with `AllAlters`; so every submitted
ALTER is immediately preceded by a CREATE for the same table.  The blueprint
handed to `workspace.ExecLogicalSchema` is the result of `AddStatement` on
exactly these statements in this order, starting from the empty blueprint with
the default character set and collation: it holds every submitted ALTER, in
order, each after a CREATE for the same table, also when one table has several
ALTERs. -/
theorem VerifyDiff_submissions (env : Env) (diff : SchemaDiff) (vopts : VerifierOptions) :
    (VerifyDiff env diff vopts).submitted
        = submissionsSpec env vopts (diff.FilteredTableDiffs .DiffTypeAlter) ∧
    (∀ td, enqueued env vopts td = true ↔
      ((env.Statement (some td) (strictMods env vopts)).1 ≠ "" ∧
        (IsUnsupportedDiff (env.Statement (some td) (strictMods env vopts)).2 = true ∨
          vopts.AllAlters = true))) ∧
    (∀ (k : Nat) (s : Statement), (VerifyDiff env diff vopts).submitted.get? k = some s →
      s.Typ = .StatementTypeAlter →
      ∃ j c, j + 1 = k ∧ (VerifyDiff env diff vopts).submitted.get? j = some c ∧
        c.Typ = .StatementTypeCreate ∧ c.ObjectName = s.ObjectName) ∧
    (∀ call ∈ (VerifyDiff env diff vopts).execCalls,
      call.1 = (VerifyDiff env diff vopts).submitted.foldl LogicalSchema.AddStatement
          { CharSet := vopts.DefaultCharacterSet, Collation := vopts.DefaultCollation,
            Statements := [] } ∧
      call.2 = vopts.WorkspaceOptions ∧
      call.1.Statements.filter (fun s => decide (s.Typ = .StatementTypeAlter))
        = (VerifyDiff env diff vopts).submitted.filter
            (fun s => decide (s.Typ = .StatementTypeAlter)) ∧
      (∀ pre s post, call.1.Statements = pre ++ s :: post → s.Typ = .StatementTypeAlter →
        ∃ c ∈ pre, c.Typ = .StatementTypeCreate ∧ c.ObjectType = s.ObjectType ∧
          c.ObjectName = s.ObjectName)) := by
  have h1 : (VerifyDiff env diff vopts).submitted
      = submissionsSpec env vopts (diff.FilteredTableDiffs .DiffTypeAlter) := by
    rw [VerifyDiff_submitted, collected_eq_foldl, submitted_foldl]
    simp [collectInit]
  have h2 : (collected env diff vopts).logicalSchema
      = (submissionsSpec env vopts (diff.FilteredTableDiffs .DiffTypeAlter)).foldl
          LogicalSchema.AddStatement
          { CharSet := vopts.DefaultCharacterSet, Collation := vopts.DefaultCollation,
            Statements := [] } := by
    rw [collected_eq_foldl, logicalSchema_foldl]
    rfl
  refine ⟨h1, ?_, ?_, ?_⟩
  · intro td
    simp [enqueued, strictRender]
  · rw [h1]
    exact submissionsSpec_alter_preceded env vopts _
  · intro call hcall
    have hc := VerifyDiff_execCalls env diff vopts call hcall
    rw [h1, hc]
    simp only
    rw [h2]
    refine ⟨rfl, trivial, ?_, ?_⟩
    · rw [alters_foldl]
      simp
    · exact AltersPreceded_foldl env vopts _ _ AltersPreceded_nil

/-- Witness of C16: two diffs of one table, as when the diff of a table is split
into two ALTERs, submit CREATE, ALTER, CREATE, ALTER; the blueprint handed to
the workspace holds the first CREATE and both ALTERs. -/
theorem VerifyDiff_submissions_witness :
    (VerifyDiff (demoEnv [tableNew] [] none) ⟨[alterSupported, createDiff, alterUnsupported]⟩
        (demoOpts true)).submitted
      = [createStatementOf alterSupported,
          alterStatementOf alterSupported "ALTER TABLE t MODIFY COLUMN c bigint",
          createStatementOf alterUnsupported,
          alterStatementOf alterUnsupported "ALTER TABLE t MODIFY COLUMN c bigint"] ∧
    (VerifyDiff (demoEnv [tableNew] [] none) ⟨[alterSupported, createDiff, alterUnsupported]⟩
        (demoOpts true)).execCalls
      = [({ CharSet := "utf8mb4", Collation := "utf8mb4_general_ci",
            Statements := [createStatementOf alterSupported,
              alterStatementOf alterSupported "ALTER TABLE t MODIFY COLUMN c bigint",
              alterStatementOf alterUnsupported "ALTER TABLE t MODIFY COLUMN c bigint"] },
          { descr := "temp-schema" })] ∧
    (VerifyDiff (demoEnv [tableNew] [] none) ⟨[alterSupported, createDiff, alterUnsupported]⟩
        (demoOpts true)).submitted
      = submissionsSpec (demoEnv [tableNew] [] none) (demoOpts true)
          (SchemaDiff.FilteredTableDiffs ⟨[alterSupported, createDiff, alterUnsupported]⟩
            .DiffTypeAlter) :=
  ⟨by decide, by decide,
    (VerifyDiff_submissions (demoEnv [tableNew] [] none)
      ⟨[alterSupported, createDiff, alterUnsupported]⟩ (demoOpts true)).1⟩

/-- C17: `Result.Merge` sets `Differences` to the logical or of the two values
and each count to the sum of the two counts, it is associative and commutative,
and it gives the result the test `TestResultMerge` expects. -/
theorem Result_Merge_spec :
    (∀ r other : Result,
      (r.Merge other).Differences = (r.Differences || other.Differences) ∧
      (r.Merge other).SkipCount = r.SkipCount + other.SkipCount ∧
      (r.Merge other).UnsupportedCount = r.UnsupportedCount + other.UnsupportedCount) ∧
    (∀ a b c : Result, (a.Merge b).Merge c = a.Merge (b.Merge c)) ∧
    (∀ a b : Result, a.Merge b = b.Merge a) ∧
    Result.Merge { Differences := false, SkipCount := 1, UnsupportedCount := 0 }
        { Differences := true, SkipCount := 3, UnsupportedCount := 5 }
      = { Differences := true, SkipCount := 4, UnsupportedCount := 5 } := by
  refine ⟨fun r other => ⟨rfl, rfl, rfl⟩, ?_, ?_, ?_⟩
  · intro a b c
    simp [Result.Merge, Bool.or_assoc, Int.add_assoc]
  · intro a b
    simp [Result.Merge, Bool.or_comm, Int.add_comm]
  · decide

/-! ## Recorded unsupported diffs -/

theorem mem_keys_unsupportedTables (env : Env) (diff : SchemaDiff) (vopts : VerifierOptions)
    (n : String) :
    n ∈ (collected env diff vopts).unsupportedTables.map Prod.fst ↔
      ∃ p ∈ diff.FilteredTableDiffs .DiffTypeAlter,
        recordedUnsupported env vopts p.2 = true ∧ p.2.From.Name = n := by
  rw [collected_eq_foldl, mem_keys_unsupportedTables_foldl]
  simp [collectInit]

theorem enqueued_eq_recorded (env : Env) (vopts : VerifierOptions) (td : TableDiff)
    (hall : vopts.AllAlters = false) :
    enqueued env vopts td = recordedUnsupported env vopts td := by
  simp [enqueued, recordedUnsupported, hall]

theorem mem_marked_recorded (env : Env) (diff : SchemaDiff) (vopts : VerifierOptions)
    (i : Nat) (h : i ∈ (VerifyDiff env diff vopts).marked) :
    ∃ call ∈ (VerifyDiff env diff vopts).verifyCalls, call.result env = none ∧
      mapGet (collected env diff vopts).unsupportedTables call.name = some i := by
  rcases VerifyDiff_trace_nil_or_ok env diff vopts with ⟨_, h2⟩ | ⟨he, hf⟩
  · rw [h2] at h
    simp at h
  · obtain ⟨_, hcalls, hmarked⟩ := VerifyDiff_loop env diff vopts he hf
    rw [hmarked] at h
    rw [hcalls]
    exact (rediffLoop_marked env _ _ _ _ i).mp h

/-- C18: when `AllAlters` is false, every key of `desiredTables` is a key of
`unsupportedTables`, so no failure of a second diff is returned: `VerifyDiff`
returns a non-nil error only if `workspace.ExecLogicalSchema`, which it has
called, returned an error or a schema with a non-empty `Failures` list. -/
theorem VerifyDiff_verify_disabled_errors (env : Env) (diff : SchemaDiff)
    (vopts : VerifierOptions) (hall : vopts.AllAlters = false) :
    (∀ n, n ∈ (collected env diff vopts).desiredTables.map Prod.fst →
      n ∈ (collected env diff vopts).unsupportedTables.map Prod.fst) ∧
    (∀ e, (VerifyDiff env diff vopts).err = some e →
      (VerifyDiff env diff vopts).execCalls
          = [((collected env diff vopts).logicalSchema, vopts.WorkspaceOptions)] ∧
        (VerifyDiff env diff vopts).verifyCalls = [] ∧
        ((wsResult env diff vopts).2 ≠ none ∨ (wsResult env diff vopts).1.Failures ≠ [])) := by
  have hkeys : ∀ n, n ∈ (collected env diff vopts).desiredTables.map Prod.fst →
      n ∈ (collected env diff vopts).unsupportedTables.map Prod.fst := by
    intro n hn
    obtain ⟨p, hp, henq, hname⟩ := (mem_keys_desiredTables env diff vopts n).mp hn
    rw [enqueued_eq_recorded env vopts p.2 hall] at henq
    exact (mem_keys_unsupportedTables env diff vopts n).mpr ⟨p, hp, henq, hname⟩
  refine ⟨hkeys, ?_⟩
  intro e herr
  by_cases hd : (collected env diff vopts).desiredTables = []
  · rw [(VerifyDiff_of_desired_nil env diff vopts hd).1] at herr
    cases herr
  · cases he : (wsResult env diff vopts).2 with
    | some e1 =>
      rw [VerifyDiff_exec_error env diff vopts hd e1 he]
      exact ⟨rfl, rfl, Or.inl (by simp)⟩
    | none =>
      cases hf : (wsResult env diff vopts).1.Failures with
      | cons f fs =>
        rw [VerifyDiff_exec_failure env diff vopts hd f fs he hf]
        exact ⟨rfl, rfl, Or.inr (by simp)⟩
      | nil =>
        exfalso
        rw [(VerifyDiff_loop env diff vopts he hf).1] at herr
        obtain ⟨call, hc, _, hnone⟩ := rediffLoop_err env _ _ _ _ e herr
        obtain ⟨_, _, hmem⟩ := rediffLoop_calls env _ _ _ _ call hc
        have hmem1 := (mem_rangeOrder_desiredTables env diff vopts _).mp hmem
        have hk : call.name ∈ (collected env diff vopts).desiredTables.map Prod.fst :=
          List.mem_map.mpr ⟨(call.name, call.desired), hmem1, rfl⟩
        exact (mapGet_eq_none_iff _ _).mp hnone (hkeys _ hk)

/-- Witness of C18: with `AllAlters` false the error of a run on an unsupported
diff comes from the workspace. -/
theorem VerifyDiff_verify_disabled_errors_witness :
    (demoOpts false).AllAlters = false ∧
    (VerifyDiff (demoEnv [] [] (some (.errorString "connection refused")))
        ⟨[alterUnsupported]⟩ (demoOpts false)).err
      = some (.errorString "Diff verification failure: connection refused") ∧
    ((wsResult (demoEnv [] [] (some (.errorString "connection refused")))
        ⟨[alterUnsupported]⟩ (demoOpts false)).2 ≠ none ∨
      (wsResult (demoEnv [] [] (some (.errorString "connection refused")))
        ⟨[alterUnsupported]⟩ (demoOpts false)).1.Failures ≠ []) :=
  ⟨rfl, by decide,
    ((VerifyDiff_verify_disabled_errors (demoEnv [] [] (some (.errorString "connection refused")))
      ⟨[alterUnsupported]⟩ (demoOpts false) rfl).2
        (.errorString "Diff verification failure: connection refused") (by decide)).2.2⟩

/-- C15 (counterexample): an alter diff whose strict render is the empty
statement with an unsupported-diff error is not recorded in
`unsupportedTables`. -/
theorem VerifyDiff_unsupported_empty_counterexample :
    (demoEnv [] [] none).Statement (some alterUnsupportedEmpty)
        (strictMods (demoEnv [] [] none) (demoOpts true))
      = ("", some (.unsupportedDiff
          { Reason := "unsupported feature", ExpectedDesc := "expected",
            ActualDesc := "actual" })) ∧
    IsUnsupportedDiff ((demoEnv [] [] none).Statement (some alterUnsupportedEmpty)
        (strictMods (demoEnv [] [] none) (demoOpts true))).2 = true ∧
    (collected (demoEnv [] [] none) ⟨[alterUnsupportedEmpty]⟩ (demoOpts true)).unsupportedTables
      = [] ∧
    mapGet (collected (demoEnv [] [] none) ⟨[alterUnsupportedEmpty]⟩
      (demoOpts true)).unsupportedTables alterUnsupportedEmpty.From.Name = none := by
  decide

/-- C15 (amended): an alter diff whose strict render is the empty statement, in
particular one that comes with an unsupported-diff error, is skipped by the
first loop before the error is looked at: it is not recorded in
`unsupportedTables`, its iteration leaves the blueprint, the submissions and
`desiredTables` unchanged, and `VerifyDiff` never marks it supported, whatever
the other diffs of the input are. -/
theorem VerifyDiff_unsupported_empty (env : Env) (diff : SchemaDiff) (vopts : VerifierOptions)
    (i : Nat) (td : TableDiff) (hget : diff.TableDiffs.get? i = some td)
    (hs : (env.Statement (some td) (strictMods env vopts)).1 = "") :
    (∀ n, mapGet (collected env diff vopts).unsupportedTables n ≠ some i) ∧
    (∀ c, collectStep env vopts (strictMods env vopts) c (i, td) = c) ∧
    i ∉ (VerifyDiff env diff vopts).marked := by
  have h1 : ∀ n, mapGet (collected env diff vopts).unsupportedTables n ≠ some i := by
    intro n hn
    obtain ⟨td1, hg, _, _, hrec⟩ := mapGet_unsupportedTables env diff vopts n i hn
    rw [hget] at hg
    cases hg
    simp [recordedUnsupported, strictRender, hs] at hrec
  refine ⟨h1, ?_, ?_⟩
  · intro c
    simp [collectStep, hs]
  · intro hi
    obtain ⟨call, _, _, hrec⟩ := mem_marked_recorded env diff vopts i hi
    exact h1 _ hrec

/-- Witness of C15 (amended): the diff at position 0 renders to the empty
statement with an unsupported-diff error; the diff of the same table at
position 1 is enqueued, verifies cleanly and is the only one marked. -/
theorem VerifyDiff_unsupported_empty_witness :
    ((demoEnv [tableNew] [] none).Statement (some alterUnsupportedEmpty)
        (strictMods (demoEnv [tableNew] [] none) (demoOpts false))).1 = "" ∧
    (VerifyDiff (demoEnv [tableNew] [] none) ⟨[alterUnsupportedEmpty, alterUnsupported]⟩
        (demoOpts false)).marked = [1] ∧
    0 ∉ (VerifyDiff (demoEnv [tableNew] [] none) ⟨[alterUnsupportedEmpty, alterUnsupported]⟩
        (demoOpts false)).marked :=
  ⟨by decide, by decide,
    (VerifyDiff_unsupported_empty (demoEnv [tableNew] [] none)
      ⟨[alterUnsupportedEmpty, alterUnsupported]⟩ (demoOpts false) 0 alterUnsupportedEmpty
      rfl (by decide)).2.2⟩

set_option maxRecDepth 8000

/-! ## Messages of `verifyTable` -/

theorem doPrintf_nil (env : Env) : doPrintf env [] [] = ([], none) := by
  simp [doPrintf]

theorem doPrintf_percent_s_cons (env : Env) (rest : List Char) (a : FmtArg)
    (as : List FmtArg) :
    doPrintf env ('%' :: 's' :: rest) (a :: as)
      = (a.text env ++ (doPrintf env rest as).1, (doPrintf env rest as).2) := by
  rw [doPrintf.eq_def]
  simp

theorem doPrintf_percent_w_err (env : Env) (rest : List Char) (e : GoError)
    (as : List FmtArg) :
    doPrintf env ('%' :: 'w' :: rest) (.err e :: as)
      = ((FmtArg.err e).text env ++ (doPrintf env rest as).1, some e) := by
  rw [doPrintf.eq_def]
  simp

theorem doPrintf_percent_percent (env : Env) (rest : List Char) (args : List FmtArg) :
    doPrintf env ('%' :: '%' :: rest) args
      = ('%' :: (doPrintf env rest args).1, (doPrintf env rest args).2) := by
  rw [doPrintf.eq_def]
  simp

/-- A format with the single verb `%s` between two texts without a percent
sign prints the texts around the operand. -/
theorem Errorf_single_s (env : Env) (pre post x : String)
    (hpre : ∀ c ∈ pre.data, c ≠ '%') (hpost : ∀ c ∈ post.data, c ≠ '%') :
    Errorf env (pre ++ "%s" ++ post) [.str x] = .errorString (pre ++ x ++ post) := by
  have hd : (pre ++ "%s" ++ post).data = pre.data ++ ('%' :: 's' :: (post.data ++ [])) := by
    simp [String.data_append]
  have h : doPrintf env (pre ++ "%s" ++ post).data [.str x]
      = (pre.data ++ (x.data ++ post.data), none) := by
    rw [hd, doPrintf_literal env _ _ _ hpre, doPrintf_percent_s_cons,
      doPrintf_literal env _ _ _ hpost, doPrintf_nil]
    simp [FmtArg.text]
  unfold Errorf
  rw [h]
  simp only
  congr 1
  apply String.ext
  simp [String.data_append]

/-- A format with the single verb `%w` between two texts without a percent
sign, applied to an error, prints the texts around the message of the error
and wraps the error. -/
theorem Errorf_single_w (env : Env) (pre post : String) (e : GoError)
    (hpre : ∀ c ∈ pre.data, c ≠ '%') (hpost : ∀ c ∈ post.data, c ≠ '%') :
    Errorf env (pre ++ "%w" ++ post) [.err e]
      = .wrapError (pre ++ e.Error env ++ post) e := by
  have hd : (pre ++ "%w" ++ post).data = pre.data ++ ('%' :: 'w' :: (post.data ++ [])) := by
    simp [String.data_append]
  have h : doPrintf env (pre ++ "%w" ++ post).data [.err e]
      = (pre.data ++ ((e.Error env).data ++ post.data), some e) := by
    rw [hd, doPrintf_literal env _ _ _ hpre, doPrintf_percent_w_err,
      doPrintf_literal env _ _ _ hpost, doPrintf_nil]
    simp [FmtArg.text]
  unfold Errorf
  rw [h]
  simp only
  congr 1
  apply String.ext
  simp [String.data_append]

theorem no_percent_append (a b : String) (ha : ∀ c ∈ a.data, c ≠ '%')
    (hb : ∀ c ∈ b.data, c ≠ '%') : ∀ c ∈ (a ++ b).data, c ≠ '%' := by
  intro c hc
  rw [String.data_append, List.mem_append] at hc
  rcases hc with h | h
  · exact ha c h
  · exact hb c h

theorem verifyTable_other_message (env : Env) (actual : Option Table) (desired : Table)
    (mods : StatementModifiers) (e : GoError)
    (hname : ∀ c ∈ desired.Name.data, c ≠ '%')
    (he : (env.Statement (env.NewAlterTable actual (some desired)) mods).2 = some e)
    (hu : errorsAs (some e) = none) :
    verifyTable env actual desired mods =
      some (.wrapError ("Diff verification failure on table " ++ desired.Name
        ++ " due to unexpected error: " ++ e.Error env
        ++ ".\nRun command again with --skip-verify if this is safe to ignore.") e) := by
  rw [verifyTable_other env actual desired mods e he hu]
  have hlit : (" due to unexpected error: %w.\nRun command again with --skip-verify if this is safe to ignore." : String)
      = " due to unexpected error: " ++ "%w"
        ++ ".\nRun command again with --skip-verify if this is safe to ignore." := by decide
  have hfmt : ("Diff verification failure on table " ++ desired.Name)
      ++ " due to unexpected error: %w.\nRun command again with --skip-verify if this is safe to ignore."
      = ("Diff verification failure on table " ++ desired.Name ++ " due to unexpected error: ")
        ++ "%w" ++ ".\nRun command again with --skip-verify if this is safe to ignore." := by
    rw [hlit]
    simp only [String.append_assoc]
  rw [hfmt, Errorf_single_w env _ _ e
    (no_percent_append _ _ (no_percent_append _ _ (by decide) hname) (by decide)) (by decide)]

theorem verifyTable_nonempty_message (env : Env) (actual : Option Table) (desired : Table)
    (mods : StatementModifiers)
    (hname : ∀ c ∈ desired.Name.data, c ≠ '%')
    (he : (env.Statement (env.NewAlterTable actual (some desired)) mods).2 = none)
    (hs : (env.Statement (env.NewAlterTable actual (some desired)) mods).1 ≠ "") :
    verifyTable env actual desired mods =
      some (.errorString ("Diff verification failure on table " ++ desired.Name
        ++ ": the generated ALTER TABLE does not fully bring the table to the desired state.\nRun command again with --skip-verify if this discrepancy is safe to ignore.\nDebug details: secondary verification diff is non-empty, yielding this DDL: "
        ++ (env.Statement (env.NewAlterTable actual (some desired)) mods).1)) := by
  rw [verifyTable_nonempty env actual desired mods he hs]
  have hlit : (": the generated ALTER TABLE does not fully bring the table to the desired state.\nRun command again with --skip-verify if this discrepancy is safe to ignore.\nDebug details: secondary verification diff is non-empty, yielding this DDL: %s" : String)
      = ": the generated ALTER TABLE does not fully bring the table to the desired state.\nRun command again with --skip-verify if this discrepancy is safe to ignore.\nDebug details: secondary verification diff is non-empty, yielding this DDL: "
        ++ "%s" ++ "" := by decide
  have hfmt : ("Diff verification failure on table " ++ desired.Name)
      ++ ": the generated ALTER TABLE does not fully bring the table to the desired state.\nRun command again with --skip-verify if this discrepancy is safe to ignore.\nDebug details: secondary verification diff is non-empty, yielding this DDL: %s"
      = ("Diff verification failure on table " ++ desired.Name ++ ": the generated ALTER TABLE does not fully bring the table to the desired state.\nRun command again with --skip-verify if this discrepancy is safe to ignore.\nDebug details: secondary verification diff is non-empty, yielding this DDL: ")
        ++ "%s" ++ "" := by
    rw [hlit]
    simp only [String.append_assoc]
  rw [hfmt, Errorf_single_s env _ _ _
    (no_percent_append _ _ (no_percent_append _ _ (by decide) hname) (by decide)) (by decide)]
  simp

theorem verifyTable_unsupported_message (env : Env) (actual : Option Table) (desired : Table)
    (mods : StatementModifiers) (u : UnsupportedDiffError)
    (hname : ∀ c ∈ desired.Name.data, c ≠ '%')
    (hu : errorsAs (env.Statement (env.NewAlterTable actual (some desired)) mods).2 = some u) :
    verifyTable env actual desired mods =
      some (.errorString ("Diff verification failure on table " ++ desired.Name
        ++ ". This may indicate a Skeema bug.\nRun command again with --skip-verify if this discrepancy is safe to ignore.\nDebug details: "
        ++ env.ExtendedError
          { Reason := stringsReplace1 u.Reason "original state" "post-verification state"
            ExpectedDesc := stringsReplace1 u.ExpectedDesc "original state" "post-verification state"
            ActualDesc := stringsReplace1 u.ActualDesc "original state" "post-verification state" })) := by
  rw [verifyTable_unsupported env actual desired mods u hu]
  have hlit : (". This may indicate a Skeema bug.\nRun command again with --skip-verify if this discrepancy is safe to ignore.\nDebug details: %s" : String)
      = ". This may indicate a Skeema bug.\nRun command again with --skip-verify if this discrepancy is safe to ignore.\nDebug details: "
        ++ "%s" ++ "" := by decide
  have hfmt : ("Diff verification failure on table " ++ desired.Name)
      ++ ". This may indicate a Skeema bug.\nRun command again with --skip-verify if this discrepancy is safe to ignore.\nDebug details: %s"
      = ("Diff verification failure on table " ++ desired.Name ++ ". This may indicate a Skeema bug.\nRun command again with --skip-verify if this discrepancy is safe to ignore.\nDebug details: ")
        ++ "%s" ++ "" := by
    rw [hlit]
    simp only [String.append_assoc]
  rw [hfmt, Errorf_single_s env _ _ _
    (no_percent_append _ _ (no_percent_append _ _ (by decide) hname) (by decide)) (by decide)]
  simp

/-! ## Replacement of the first occurrence -/

theorem startsWith_append (p t : List Char) : startsWith p (p ++ t) = true := by
  induction p with
  | nil => simp [startsWith]
  | cons a p ih => simp [startsWith, ih]

theorem replaceFirst_of_not_contains (old new s : List Char)
    (h : containsSub old s = false) : replaceFirst old new s = s := by
  induction s with
  | nil =>
    cases old with
    | nil => simp [containsSub, startsWith] at h
    | cons a old => simp [replaceFirst]
  | cons c cs ih =>
    simp only [containsSub, Bool.or_eq_false_iff] at h
    simp [replaceFirst, h.1, ih h.2]

theorem replaceFirst_first (old new pre post : List Char)
    (h : ∀ k < pre.length, startsWith old ((pre ++ old ++ post).drop k) = false) :
    replaceFirst old new (pre ++ old ++ post) = pre ++ new ++ post := by
  induction pre with
  | nil =>
    simp only [List.nil_append]
    generalize hs : old ++ post = s
    cases s with
    | nil =>
      have h1 : old = [] := (List.append_eq_nil.mp hs).1
      have h2 : post = [] := (List.append_eq_nil.mp hs).2
      simp [replaceFirst, h1, h2]
    | cons c cs =>
      have hst : startsWith old (c :: cs) = true := by
        rw [← hs]
        exact startsWith_append old post
      have hdrop : (c :: cs).drop old.length = post := by
        rw [← hs]
        exact List.drop_left old post
      simp only [replaceFirst, hst, if_true, hdrop]
  | cons a pre ih =>
    have h0 := h 0 (by simp)
    simp only [List.drop_zero, List.cons_append] at h0
    have ih1 := ih (fun k hk => by
      have := h (k + 1) (by simpa using hk)
      simpa using this)
    show replaceFirst old new (a :: (pre ++ old ++ post)) = a :: (pre ++ new ++ post)
    rw [replaceFirst, if_neg (by rw [h0]; exact Bool.false_ne_true), ih1]

/-! ## The claims about the messages -/

/-- C11 (counterexample): for a second-diff render error that is not an
unsupported-diff error the returned error wraps it, but its message holds the
hint "Run command again with --skip-verify if this is safe to ignore." and not
the hint of the unsupported-diff case. -/
theorem verifyTable_other_error_counterexample :
    rediffErrorEnv.Statement (rediffErrorEnv.NewAlterTable (some tableOld) (some tableNew))
        (relaxMods (strictMods rediffErrorEnv (demoOpts true)))
      = ("", some (.errorString "lock wait timeout")) ∧
    IsUnsupportedDiff (some (.errorString "lock wait timeout")) = false ∧
    verifyTable rediffErrorEnv (some tableOld) tableNew
        (relaxMods (strictMods rediffErrorEnv (demoOpts true)))
      = some (.wrapError
          "Diff verification failure on table t due to unexpected error: lock wait timeout.\nRun command again with --skip-verify if this is safe to ignore."
          (.errorString "lock wait timeout")) ∧
    containsSub
        ("Run command again with --skip-verify if this discrepancy is safe to ignore." : String).data
        ("Diff verification failure on table t due to unexpected error: lock wait timeout.\nRun command again with --skip-verify if this is safe to ignore." : String).data
      = false := by
  decide

/-- C11 (amended): for a desired table whose name has no percent sign and a
second-diff render error that is non-nil and not an unsupported-diff error,
`verifyTable` returns an error that wraps that error, with the message "Diff
verification failure on table NAME due to unexpected error: ERR." followed on
a new line by the hint "Run command again with --skip-verify if this is safe to
ignore." -/
theorem verifyTable_other_error (env : Env) (actual : Option Table) (desired : Table)
    (mods : StatementModifiers) (e : GoError)
    (hname : ∀ c ∈ desired.Name.data, c ≠ '%')
    (he : (env.Statement (env.NewAlterTable actual (some desired)) mods).2 = some e)
    (hu : IsUnsupportedDiff (some e) = false) :
    verifyTable env actual desired mods =
      some (.wrapError ("Diff verification failure on table " ++ desired.Name
        ++ " due to unexpected error: " ++ e.Error env
        ++ ".\nRun command again with --skip-verify if this is safe to ignore.") e) := by
  apply verifyTable_other_message env actual desired mods e hname he
  simpa [IsUnsupportedDiff] using hu

/-- Witness of C11 (amended) on a render that fails with a lock timeout. -/
theorem verifyTable_other_error_witness :
    (∀ c ∈ tableNew.Name.data, c ≠ '%') ∧
    verifyTable rediffErrorEnv (some tableOld) tableNew
        (relaxMods (strictMods rediffErrorEnv (demoOpts true)))
      = some (.wrapError ("Diff verification failure on table " ++ tableNew.Name
        ++ " due to unexpected error: " ++ (GoError.errorString "lock wait timeout").Error rediffErrorEnv
        ++ ".\nRun command again with --skip-verify if this is safe to ignore.")
        (.errorString "lock wait timeout")) :=
  ⟨by decide,
    verifyTable_other_error rediffErrorEnv (some tableOld) tableNew
      (relaxMods (strictMods rediffErrorEnv (demoOpts true))) (.errorString "lock wait timeout")
      (by decide) (by decide) (by decide)⟩

/-- C12: when the second diff returns an unsupported-diff error, `verifyTable`
replaces in each of the three descriptors, independently, the first occurrence
of "original state" by "post-verification state" and builds the message of the
returned error from the extended description of the rewritten error (for a
table name without a percent sign the message ends with it).  The replacement
leaves a descriptor without the phrase unchanged and leaves everything after
the first occurrence, later occurrences included, as it is. -/
theorem verifyTable_rewrites_descriptors (env : Env) (actual : Option Table) (desired : Table)
    (mods : StatementModifiers) (u : UnsupportedDiffError)
    (hu : errorsAs (env.Statement (env.NewAlterTable actual (some desired)) mods).2 = some u) :
    verifyTable env actual desired mods =
      some (Errorf env (("Diff verification failure on table " ++ desired.Name) ++ ". This may indicate a Skeema bug.\nRun command again with --skip-verify if this discrepancy is safe to ignore.\nDebug details: %s")
        [.str (env.ExtendedError
          { Reason := stringsReplace1 u.Reason "original state" "post-verification state"
            ExpectedDesc := stringsReplace1 u.ExpectedDesc "original state" "post-verification state"
            ActualDesc := stringsReplace1 u.ActualDesc "original state" "post-verification state" })]) ∧
    ((∀ c ∈ desired.Name.data, c ≠ '%') →
      verifyTable env actual desired mods =
        some (.errorString ("Diff verification failure on table " ++ desired.Name
          ++ ". This may indicate a Skeema bug.\nRun command again with --skip-verify if this discrepancy is safe to ignore.\nDebug details: "
          ++ env.ExtendedError
            { Reason := stringsReplace1 u.Reason "original state" "post-verification state"
              ExpectedDesc := stringsReplace1 u.ExpectedDesc "original state" "post-verification state"
              ActualDesc := stringsReplace1 u.ActualDesc "original state" "post-verification state" }))) ∧
    (∀ s : String, containsSub ("original state" : String).data s.data = false →
      stringsReplace1 s "original state" "post-verification state" = s) ∧
    (∀ pre post : String,
      (∀ k < pre.data.length, startsWith ("original state" : String).data
        ((pre ++ "original state" ++ post).data.drop k) = false) →
      stringsReplace1 (pre ++ "original state" ++ post) "original state" "post-verification state"
        = pre ++ "post-verification state" ++ post) := by
  refine ⟨verifyTable_unsupported env actual desired mods u hu,
    fun hname => verifyTable_unsupported_message env actual desired mods u hname hu, ?_, ?_⟩
  · intro s hs
    apply String.ext
    simp only [stringsReplace1]
    exact replaceFirst_of_not_contains _ _ _ hs
  · intro pre post h
    apply String.ext
    simp only [stringsReplace1, String.data_append] at h ⊢
    exact replaceFirst_first _ _ _ _ h

/-- Witness of C12: the reason holds the phrase twice and only the first
occurrence is replaced, the expected description does not hold it and is
unchanged, the actual description holds it once. -/
theorem verifyTable_rewrites_descriptors_witness :
    errorsAs (rediffUnsupportedEnv.Statement
        (rediffUnsupportedEnv.NewAlterTable (some tableOld) (some tableNew))
        (relaxMods (strictMods rediffUnsupportedEnv (demoOpts true)))).2
      = some { Reason := "original state differs from original state"
               ExpectedDesc := "desired state"
               ActualDesc := "the original state" } ∧
    verifyTable rediffUnsupportedEnv (some tableOld) tableNew
        (relaxMods (strictMods rediffUnsupportedEnv (demoOpts true)))
      = some (.errorString
          "Diff verification failure on table t. This may indicate a Skeema bug.\nRun command again with --skip-verify if this discrepancy is safe to ignore.\nDebug details: post-verification state differs from original state|desired state|the post-verification state") ∧
    verifyTable rediffUnsupportedEnv (some tableOld) tableNew
        (relaxMods (strictMods rediffUnsupportedEnv (demoOpts true)))
      = some (.errorString ("Diff verification failure on table " ++ tableNew.Name
          ++ ". This may indicate a Skeema bug.\nRun command again with --skip-verify if this discrepancy is safe to ignore.\nDebug details: "
          ++ rediffUnsupportedEnv.ExtendedError
            { Reason := stringsReplace1 "original state differs from original state"
                "original state" "post-verification state"
              ExpectedDesc := stringsReplace1 "desired state" "original state"
                "post-verification state"
              ActualDesc := stringsReplace1 "the original state" "original state"
                "post-verification state" })) :=
  ⟨by decide, by decide,
    (verifyTable_rewrites_descriptors rediffUnsupportedEnv (some tableOld) tableNew
      (relaxMods (strictMods rediffUnsupportedEnv (demoOpts true)))
      { Reason := "original state differs from original state"
        ExpectedDesc := "desired state"
        ActualDesc := "the original state" } (by decide)).2.1 (by decide)⟩

/-- C13 (the code at the failing input): for the table named `a%%b`, in the
workspace and as desired, and a non-empty second-diff statement rendered
without error, the message of the error names the table `a%b`, so it is not the
text the claim composes from the name and the statement. -/
theorem verifyTable_percent_name :
    (demoEnv [] [] none).Statement
        ((demoEnv [] [] none).NewAlterTable (some tablePercentOld) (some tablePercent))
        (relaxMods (strictMods (demoEnv [] [] none) (demoOpts true)))
      = ("ALTER TABLE a%%b MODIFY COLUMN c bigint", none) ∧
    verifyTable (demoEnv [] [] none) (some tablePercentOld) tablePercent
        (relaxMods (strictMods (demoEnv [] [] none) (demoOpts true)))
      = some (.errorString
          "Diff verification failure on table a%b: the generated ALTER TABLE does not fully bring the table to the desired state.\nRun command again with --skip-verify if this discrepancy is safe to ignore.\nDebug details: secondary verification diff is non-empty, yielding this DDL: ALTER TABLE a%%b MODIFY COLUMN c bigint") ∧
    verifyTable (demoEnv [] [] none) (some tablePercentOld) tablePercent
        (relaxMods (strictMods (demoEnv [] [] none) (demoOpts true)))
      ≠ some (.errorString ("Diff verification failure on table " ++ tablePercent.Name
          ++ ": the generated ALTER TABLE does not fully bring the table to the desired state.\nRun command again with --skip-verify if this discrepancy is safe to ignore.\nDebug details: secondary verification diff is non-empty, yielding this DDL: "
          ++ "ALTER TABLE a%%b MODIFY COLUMN c bigint")) := by
  decide

/-! ## Independence of the iteration order -/

theorem pickAt_of_mem {α : Type} (y x : α) (xs : List α) (h : y ∈ x :: xs) :
    ∃ i, i < xs.length + 1 ∧ (pickAt i x xs).1 = y := by
  induction xs generalizing x with
  | nil =>
    simp only [List.mem_singleton] at h
    exact ⟨0, by simp, by simp [pickAt, h]⟩
  | cons x1 xs ih =>
    rcases List.mem_cons.mp h with h1 | h1
    · exact ⟨0, by simp, by simp [pickAt, h1]⟩
    · obtain ⟨i, hi, hp⟩ := ih x1 h1
      exact ⟨i + 1, by simpa using hi, by simp [pickAt, hp]⟩

/-- Every order of the entries of a map is chosen by some seed. -/
theorem rangeOrder_surjective {α : Type} (ord l : List α) (h : ord.Perm l) :
    ∃ seed, rangeOrder seed l = ord := by
  induction ord generalizing l with
  | nil =>
    have : l = [] := List.Perm.eq_nil h.symm
    subst this
    exact ⟨[], by simp [rangeOrder]⟩
  | cons y ys ih =>
    cases l with
    | nil => exact absurd h.eq_nil (by simp)
    | cons x xs =>
      have hy : y ∈ x :: xs := h.subset (List.mem_cons_self y ys)
      obtain ⟨i, hi, hp⟩ := pickAt_of_mem y x xs hy
      have hperm : ((pickAt i x xs).1 :: (pickAt i x xs).2).Perm (y :: ys) :=
        (pickAt_perm i x xs).trans h.symm
      rw [hp] at hperm
      obtain ⟨seed, hseed⟩ := ih (pickAt i x xs).2 hperm.cons_inv.symm
      refine ⟨i :: seed, ?_⟩
      simp only [rangeOrder, Nat.mod_eq_of_lt hi, hp, hseed]

theorem rediffLoop_err_none_iff (env : Env) (actualTables : String → Option Table)
    (unsup : List (String × Nat)) (mods : StatementModifiers) (ord : List (String × Table)) :
    (rediffLoop env actualTables unsup mods ord).1 = none ↔
      ∀ p ∈ ord, verifyTable env (actualTables p.1) p.2 mods = none ∨
        mapGet unsup p.1 ≠ none := by
  induction ord with
  | nil => simp [rediffLoop]
  | cons q rest ih =>
    obtain ⟨name, desired⟩ := q
    rw [rediffLoop_cons]
    cases hv : verifyTable env (actualTables name) desired mods <;>
      cases hu : mapGet unsup name <;>
      simp only [hv, hu, ih, List.forall_mem_cons] <;> simp

theorem rediffLoop_marked_of_none (env : Env) (actualTables : String → Option Table)
    (unsup : List (String × Nat)) (mods : StatementModifiers) (ord : List (String × Table))
    (h : (rediffLoop env actualTables unsup mods ord).1 = none) (i : Nat) :
    i ∈ (rediffLoop env actualTables unsup mods ord).2.2 ↔
      ∃ p ∈ ord, verifyTable env (actualTables p.1) p.2 mods = none ∧
        mapGet unsup p.1 = some i := by
  induction ord with
  | nil => simp [rediffLoop]
  | cons q rest ih =>
    obtain ⟨name, desired⟩ := q
    rw [rediffLoop_cons] at h ⊢
    cases hv : verifyTable env (actualTables name) desired mods <;>
      cases hu : mapGet unsup name <;>
      simp only [hv, hu] at h ⊢
    · simp [ih h, hv, hu]
    · simp [ih h, hv, hu, eq_comm]
    · cases h
    · simp [ih h, hv, hu]

/-- The second loop on two orders of the same entries: nil is returned on one
iff on the other, and then the same positions are marked. -/
theorem rediffLoop_perm (env : Env) (actualTables : String → Option Table)
    (unsup : List (String × Nat)) (mods : StatementModifiers)
    (ord ord' : List (String × Table)) (hp : ord'.Perm ord) :
    ((rediffLoop env actualTables unsup mods ord').1 = none ↔
      (rediffLoop env actualTables unsup mods ord).1 = none) ∧
    ((rediffLoop env actualTables unsup mods ord).1 = none →
      ∀ i, i ∈ (rediffLoop env actualTables unsup mods ord').2.2 ↔
        i ∈ (rediffLoop env actualTables unsup mods ord).2.2) := by
  have h1 : (rediffLoop env actualTables unsup mods ord').1 = none ↔
      (rediffLoop env actualTables unsup mods ord).1 = none := by
    rw [rediffLoop_err_none_iff, rediffLoop_err_none_iff]
    exact ⟨fun h p hm => h p (hp.mem_iff.mpr hm), fun h p hm => h p (hp.mem_iff.mp hm)⟩
  refine ⟨h1, ?_⟩
  intro hnone i
  rw [rediffLoop_marked_of_none env _ _ _ _ hnone, rediffLoop_marked_of_none env _ _ _ _
    (h1.mpr hnone)]
  exact ⟨fun ⟨p, hm, h⟩ => ⟨p, hp.mem_iff.mp hm, h⟩, fun ⟨p, hm, h⟩ => ⟨p, hp.mem_iff.mpr hm, h⟩⟩

theorem collected_mapOrder (env : Env) (diff : SchemaDiff) (vopts : VerifierOptions)
    (seed : List Nat) :
    collected { env with mapOrder := seed } diff vopts = collected env diff vopts := by
  unfold collected
  have hm : strictMods { env with mapOrder := seed } vopts = strictMods env vopts := rfl
  rw [hm]
  exact collect_congr env { env with mapOrder := seed } vopts _ (fun _ => ⟨rfl, rfl⟩) _

theorem wsResult_mapOrder (env : Env) (diff : SchemaDiff) (vopts : VerifierOptions)
    (seed : List Nat) :
    wsResult { env with mapOrder := seed } diff vopts = wsResult env diff vopts := by
  unfold wsResult
  rw [collected_mapOrder]

/-- C14 (counterexample): the same input under two iteration orders of
`desiredTables`: when the first table is visited first its diff is marked
supported before the second table fails, when the second table is visited
first nothing is marked. -/
theorem VerifyDiff_order_counterexample :
    rangeOrder (demoEnvOrder []).mapOrder
        (collected (demoEnvOrder []) ⟨[alterAUnsupported, alterBSupported]⟩
          (demoOpts true)).desiredTables
      = [("a", tableANew), ("b", tableBNew)] ∧
    rangeOrder (demoEnvOrder [1]).mapOrder
        (collected (demoEnvOrder [1]) ⟨[alterAUnsupported, alterBSupported]⟩
          (demoOpts true)).desiredTables
      = [("b", tableBNew), ("a", tableANew)] ∧
    (VerifyDiff (demoEnvOrder []) ⟨[alterAUnsupported, alterBSupported]⟩
        (demoOpts true)).marked = [0] ∧
    (VerifyDiff (demoEnvOrder [1]) ⟨[alterAUnsupported, alterBSupported]⟩
        (demoOpts true)).marked = [] ∧
    (VerifyDiff (demoEnvOrder []) ⟨[alterAUnsupported, alterBSupported]⟩
        (demoOpts true)).err ≠ none ∧
    (VerifyDiff (demoEnvOrder [1]) ⟨[alterAUnsupported, alterBSupported]⟩
        (demoOpts true)).err ≠ none := by
  decide

/-- C14 (amended): for any two iteration orders of `desiredTables` (every order
is chosen by some seed), `VerifyDiff` returns nil under one order if and only
if it returns nil under the other, and when it returns nil the same diffs are
marked supported under both orders. -/
theorem VerifyDiff_order (env : Env) (diff : SchemaDiff) (vopts : VerifierOptions)
    (seed : List Nat) :
    ((VerifyDiff { env with mapOrder := seed } diff vopts).err = none ↔
      (VerifyDiff env diff vopts).err = none) ∧
    ((VerifyDiff env diff vopts).err = none →
      ∀ i, i ∈ (VerifyDiff { env with mapOrder := seed } diff vopts).marked ↔
        i ∈ (VerifyDiff env diff vopts).marked) ∧
    (∀ ord : List (String × Table), ord.Perm (collected env diff vopts).desiredTables →
      ∃ seed1, rangeOrder seed1 (collected env diff vopts).desiredTables = ord) := by
  have hc := collected_mapOrder env diff vopts seed
  have hw := wsResult_mapOrder env diff vopts seed
  refine ⟨?_, ?_, fun ord h => rangeOrder_surjective ord _ h⟩
  · by_cases hd : (collected env diff vopts).desiredTables = []
    · rw [(VerifyDiff_of_desired_nil env diff vopts hd).1,
        (VerifyDiff_of_desired_nil { env with mapOrder := seed } diff vopts (by rw [hc]; exact hd)).1]
    · have hd1 : (collected { env with mapOrder := seed } diff vopts).desiredTables ≠ [] := by
        rw [hc]
        exact hd
      cases he : (wsResult env diff vopts).2 with
      | some e1 =>
        rw [VerifyDiff_exec_error env diff vopts hd e1 he,
          VerifyDiff_exec_error { env with mapOrder := seed } diff vopts hd1 e1 (by rw [hw]; exact he)]
        simp
      | none =>
        cases hf : (wsResult env diff vopts).1.Failures with
        | cons f fs =>
          rw [VerifyDiff_exec_failure env diff vopts hd f fs he hf,
            VerifyDiff_exec_failure { env with mapOrder := seed } diff vopts hd1 f fs
              (by rw [hw]; exact he) (by rw [hw]; exact hf)]
          simp
        | nil =>
          rw [(VerifyDiff_loop env diff vopts he hf).1,
            (VerifyDiff_loop { env with mapOrder := seed } diff vopts (by rw [hw]; exact he)
              (by rw [hw]; exact hf)).1, hc, hw]
          have hm : strictMods { env with mapOrder := seed } vopts = strictMods env vopts := rfl
          rw [hm, rediffLoop_congr env { env with mapOrder := seed } rfl rfl rfl rfl _
            (fun _ => rfl)]
          exact (rediffLoop_perm env _ _ _ _ _
            ((rangeOrder_perm _ _).trans (rangeOrder_perm _ _).symm)).1
  · intro hnone i
    by_cases hd : (collected env diff vopts).desiredTables = []
    · rw [(VerifyDiff_of_desired_nil env diff vopts hd).2.2.2,
        (VerifyDiff_of_desired_nil { env with mapOrder := seed } diff vopts
          (by rw [hc]; exact hd)).2.2.2]
    · cases he : (wsResult env diff vopts).2 with
      | some e1 =>
        rw [VerifyDiff_exec_error env diff vopts hd e1 he] at hnone
        cases hnone
      | none =>
        cases hf : (wsResult env diff vopts).1.Failures with
        | cons f fs =>
          rw [VerifyDiff_exec_failure env diff vopts hd f fs he hf] at hnone
          cases hnone
        | nil =>
          rw [(VerifyDiff_loop env diff vopts he hf).1] at hnone
          rw [(VerifyDiff_loop env diff vopts he hf).2.2,
            (VerifyDiff_loop { env with mapOrder := seed } diff vopts (by rw [hw]; exact he)
              (by rw [hw]; exact hf)).2.2, hc, hw]
          have hm : strictMods { env with mapOrder := seed } vopts = strictMods env vopts := rfl
          rw [hm, rediffLoop_congr env { env with mapOrder := seed } rfl rfl rfl rfl _
            (fun _ => rfl)]
          exact (rediffLoop_perm env _ _ _ _ _
            ((rangeOrder_perm _ _).trans (rangeOrder_perm _ _).symm)).2 hnone i

/-- Witness of C14 (amended): with a workspace that brings both tables to their
desired state, nil is returned and the first diff is marked under both
orders. -/
theorem VerifyDiff_order_witness :
    (VerifyDiff { demoEnv [tableANew, tableBNew] [] none with mapOrder := [1] }
        ⟨[alterAUnsupported, alterBSupported]⟩ (demoOpts true)).err = none ∧
    (VerifyDiff (demoEnv [tableANew, tableBNew] [] none)
        ⟨[alterAUnsupported, alterBSupported]⟩ (demoOpts true)).err = none ∧
    (0 ∈ (VerifyDiff { demoEnv [tableANew, tableBNew] [] none with mapOrder := [1] }
        ⟨[alterAUnsupported, alterBSupported]⟩ (demoOpts true)).marked ↔
      0 ∈ (VerifyDiff (demoEnv [tableANew, tableBNew] [] none)
        ⟨[alterAUnsupported, alterBSupported]⟩ (demoOpts true)).marked) :=
  ⟨by decide, by decide,
    (VerifyDiff_order (demoEnv [tableANew, tableBNew] [] none)
      ⟨[alterAUnsupported, alterBSupported]⟩ (demoOpts true) [1]).2.1 (by decide) 0⟩

/-! ## Several diffs with one source table name -/

theorem lastWith_some {α : Type} (P : α → Bool) (l : List α) (a : α)
    (h : lastWith P l = some a) :
    ∃ pre post, l = pre ++ a :: post ∧ P a = true ∧ ∀ b ∈ post, P b = false := by
  induction l with
  | nil => simp [lastWith] at h
  | cons x l ih =>
    simp only [lastWith] at h
    cases hl : lastWith P l with
    | some b =>
      rw [hl] at h
      simp only [Option.some.injEq] at h
      subst h
      obtain ⟨pre, post, h1, h2, h3⟩ := ih hl
      exact ⟨x :: pre, post, by rw [h1]; rfl, h2, h3⟩
    | none =>
      rw [hl] at h
      by_cases hx : P x = true
      · simp only [hx, if_true, Option.some.injEq] at h
        subst h
        refine ⟨[], l, rfl, hx, ?_⟩
        clear ih
        induction l with
        | nil => simp
        | cons y l ih2 =>
          simp only [lastWith] at hl
          cases hl2 : lastWith P l with
          | some c => rw [hl2] at hl; cases hl
          | none =>
            rw [hl2] at hl
            intro b hb
            rcases List.mem_cons.mp hb with hb1 | hb1
            · subst hb1
              by_cases hy : P b = true
              · simp [hy] at hl
              · simpa using hy
            · exact ih2 hl2 b hb1
      · simp [hx] at h

theorem mapGet_desiredTables_foldl (env : Env) (vopts : VerifierOptions)
    (l : List (Nat × TableDiff)) (c : Collected) (n : String) :
    mapGet (l.foldl (collectStep env vopts (strictMods env vopts)) c).desiredTables n =
      match lastEnqueued env vopts n l with
      | some p => some p.2.To
      | none => mapGet c.desiredTables n := by
  induction l generalizing c with
  | nil => simp [lastEnqueued, lastWith]
  | cons p l ih =>
    rw [List.foldl_cons, ih]
    unfold lastEnqueued at ih ⊢
    simp only [lastWith]
    cases hl : lastWith (fun p => enqueued env vopts p.2 && decide (p.2.From.Name = n)) l with
    | some q => rfl
    | none =>
      simp only [desiredTables_collectStep]
      by_cases he : enqueued env vopts p.2 = true
      · by_cases hn : p.2.From.Name = n
        · simp [he, hn, mapGet_mapSet]
        · simp [he, hn, mapGet_mapSet]
      · simp [he]

theorem mapGet_unsupportedTables_last_foldl (env : Env) (vopts : VerifierOptions)
    (l : List (Nat × TableDiff)) (c : Collected) (n : String) :
    mapGet (l.foldl (collectStep env vopts (strictMods env vopts)) c).unsupportedTables n =
      match lastRecorded env vopts n l with
      | some p => some p.1
      | none => mapGet c.unsupportedTables n := by
  induction l generalizing c with
  | nil => simp [lastRecorded, lastWith]
  | cons p l ih =>
    rw [List.foldl_cons, ih]
    unfold lastRecorded at ih ⊢
    simp only [lastWith]
    cases hl : lastWith (fun p => recordedUnsupported env vopts p.2 &&
        decide (p.2.From.Name = n)) l with
    | some q => rfl
    | none =>
      simp only [unsupportedTables_collectStep]
      by_cases he : recordedUnsupported env vopts p.2 = true
      · by_cases hn : p.2.From.Name = n
        · simp [he, hn, mapGet_mapSet]
        · simp [he, hn, mapGet_mapSet]
      · simp [he]

theorem mapGet_desiredTables_last (env : Env) (diff : SchemaDiff) (vopts : VerifierOptions)
    (n : String) :
    mapGet (collected env diff vopts).desiredTables n =
      (lastEnqueued env vopts n (diff.FilteredTableDiffs .DiffTypeAlter)).map
        (fun p => p.2.To) := by
  rw [collected_eq_foldl, mapGet_desiredTables_foldl]
  cases lastEnqueued env vopts n (diff.FilteredTableDiffs .DiffTypeAlter) <;>
    simp [collectInit, mapGet]

theorem mapGet_unsupportedTables_last (env : Env) (diff : SchemaDiff) (vopts : VerifierOptions)
    (n : String) :
    mapGet (collected env diff vopts).unsupportedTables n =
      (lastRecorded env vopts n (diff.FilteredTableDiffs .DiffTypeAlter)).map
        (fun p => p.1) := by
  rw [collected_eq_foldl, mapGet_unsupportedTables_last_foldl]
  cases lastRecorded env vopts n (diff.FilteredTableDiffs .DiffTypeAlter) <;>
    simp [collectInit, mapGet]

theorem VerifyDiff_calls (env : Env) (diff : SchemaDiff) (vopts : VerifierOptions) :
    ((VerifyDiff env diff vopts).verifyCalls.map (fun call => call.name)).Nodup ∧
    ∀ call ∈ (VerifyDiff env diff vopts).verifyCalls,
      mapGet (collected env diff vopts).desiredTables call.name = some call.desired := by
  rcases VerifyDiff_trace_nil_or_ok env diff vopts with ⟨h1, _⟩ | ⟨he, hf⟩
  · rw [h1]
    simp
  · obtain ⟨_, hcalls, _⟩ := VerifyDiff_loop env diff vopts he hf
    rw [hcalls]
    refine ⟨rediffLoop_names_nodup env _ _ _ _ (nodup_keys_rangeOrder env diff vopts), ?_⟩
    intro call hc
    obtain ⟨_, _, hmem⟩ := rediffLoop_calls env _ _ _ _ call hc
    exact mapGet_of_mem _ _ _ (nodup_keys_desiredTables env diff vopts)
      ((mem_rangeOrder_desiredTables env diff vopts _).mp hmem)

theorem VerifyDiff_all_processed (env : Env) (diff : SchemaDiff) (vopts : VerifierOptions)
    (he : (wsResult env diff vopts).2 = none)
    (hf : (wsResult env diff vopts).1.Failures = [])
    (hnone : (VerifyDiff env diff vopts).err = none) :
    ∀ p ∈ (collected env diff vopts).desiredTables,
      ∃ call ∈ (VerifyDiff env diff vopts).verifyCalls,
        call.name = p.1 ∧ call.desired = p.2 := by
  obtain ⟨herr, hcalls, _⟩ := VerifyDiff_loop env diff vopts he hf
  rw [herr] at hnone
  rw [hcalls]
  intro p hp
  obtain ⟨processed, rest, h1, h2, h3⟩ := rediffLoop_processed env
    (wsResult env diff vopts).1.TablesByName
    (collected env diff vopts).unsupportedTables (relaxMods (strictMods env vopts))
    (rangeOrder env.mapOrder (collected env diff vopts).desiredTables)
  rw [h3 hnone, List.append_nil] at h1
  have hp1 : p ∈ processed := by
    rw [← h1]
    exact (mem_rangeOrder_desiredTables env diff vopts _).mpr hp
  rw [← h2] at hp1
  obtain ⟨call, hc, hcp⟩ := List.mem_map.mp hp1
  exact ⟨call, hc, by rw [← hcp], by rw [← hcp]⟩

/-- C19 (counterexample): two enqueued alter diffs share the source table name
and the workspace execution fails, so no second diff is performed for the
name. -/
theorem VerifyDiff_shared_name_counterexample :
    enqueued (demoEnv [] [] (some (.errorString "connection refused"))) (demoOpts true)
      alterUnsupported = true ∧
    enqueued (demoEnv [] [] (some (.errorString "connection refused"))) (demoOpts true)
      alterSupportedSecond = true ∧
    alterUnsupported.From.Name = alterSupportedSecond.From.Name ∧
    (VerifyDiff (demoEnv [] [] (some (.errorString "connection refused")))
      ⟨[alterUnsupported, alterSupportedSecond]⟩ (demoOpts true)).verifyCalls = [] := by
  decide

/-- C19 (amended): when several enqueued alter diffs share the source table
name `n`, at most one second diff is performed for the name, exactly one in a
run that returns nil after a successful workspace execution, and it is made
against the `To` table of the last enqueued diff with that name; only the last
enqueued diff with that name that returned an unsupported-diff error can be
marked supported; and if a diff with that name is recorded as unsupported, a
failing second diff for the name is tolerated, so a returned error is the second
diff of another name, also when another enqueued diff with that name rendered
without error. -/
theorem VerifyDiff_shared_name (env : Env) (diff : SchemaDiff) (vopts : VerifierOptions)
    (n : String) :
    ((VerifyDiff env diff vopts).verifyCalls.map (fun call => call.name)).count n ≤ 1 ∧
    (∀ call ∈ (VerifyDiff env diff vopts).verifyCalls, call.name = n →
      (lastEnqueued env vopts n (diff.FilteredTableDiffs .DiffTypeAlter)).map (fun p => p.2.To)
        = some call.desired) ∧
    ((wsResult env diff vopts).2 = none → (wsResult env diff vopts).1.Failures = [] →
      (VerifyDiff env diff vopts).err = none →
      lastEnqueued env vopts n (diff.FilteredTableDiffs .DiffTypeAlter) ≠ none →
      ((VerifyDiff env diff vopts).verifyCalls.map (fun call => call.name)).count n = 1) ∧
    (∀ i ∈ (VerifyDiff env diff vopts).marked, ∀ td, diff.TableDiffs.get? i = some td →
      td.From.Name = n →
      (lastRecorded env vopts n (diff.FilteredTableDiffs .DiffTypeAlter)).map (fun p => p.1)
        = some i) ∧
    (lastRecorded env vopts n (diff.FilteredTableDiffs .DiffTypeAlter) ≠ none →
      (wsResult env diff vopts).2 = none → (wsResult env diff vopts).1.Failures = [] →
      ∀ e, (VerifyDiff env diff vopts).err = some e →
        ∃ call ∈ (VerifyDiff env diff vopts).verifyCalls, call.name ≠ n ∧
          call.result env = some e) ∧
    (∀ p, lastEnqueued env vopts n (diff.FilteredTableDiffs .DiffTypeAlter) = some p →
      ∃ pre post, diff.FilteredTableDiffs .DiffTypeAlter = pre ++ p :: post ∧
        (enqueued env vopts p.2 = true ∧ p.2.From.Name = n) ∧
        ∀ q ∈ post, ¬ (enqueued env vopts q.2 = true ∧ q.2.From.Name = n)) ∧
    (∀ p, lastRecorded env vopts n (diff.FilteredTableDiffs .DiffTypeAlter) = some p →
      ∃ pre post, diff.FilteredTableDiffs .DiffTypeAlter = pre ++ p :: post ∧
        (recordedUnsupported env vopts p.2 = true ∧ p.2.From.Name = n) ∧
        ∀ q ∈ post, ¬ (recordedUnsupported env vopts q.2 = true ∧ q.2.From.Name = n)) := by
  obtain ⟨hnodup, hdesired⟩ := VerifyDiff_calls env diff vopts
  have hcount := List.nodup_iff_count_le_one.mp hnodup n
  refine ⟨hcount, ?_, ?_, ?_, ?_, ?_, ?_⟩
  · intro call hc hname
    rw [← mapGet_desiredTables_last, ← hname]
    exact hdesired call hc
  · intro he hf hnone hlast
    have hget : mapGet (collected env diff vopts).desiredTables n ≠ none := by
      rw [mapGet_desiredTables_last]
      cases hl : lastEnqueued env vopts n (diff.FilteredTableDiffs .DiffTypeAlter) with
      | none => exact absurd hl hlast
      | some p => simp
    cases hg : mapGet (collected env diff vopts).desiredTables n with
    | none => exact absurd hg hget
    | some t =>
      obtain ⟨call, hc, hcn, _⟩ := VerifyDiff_all_processed env diff vopts he hf hnone (n, t)
        (mem_of_mapGet _ _ _ hg)
      have hmem : n ∈ (VerifyDiff env diff vopts).verifyCalls.map (fun call => call.name) :=
        List.mem_map.mpr ⟨call, hc, hcn⟩
      have h1 := List.one_le_count_iff.mpr hmem
      omega
  · intro i hi td hget hname
    obtain ⟨call, _, _, hrec⟩ := mem_marked_recorded env diff vopts i hi
    obtain ⟨td1, hg, _, hn1, _⟩ := mapGet_unsupportedTables env diff vopts _ i hrec
    rw [hget] at hg
    cases hg
    rw [← mapGet_unsupportedTables_last, ← hname, hn1]
    exact hrec
  · intro hlast he hf e herr
    have hget : mapGet (collected env diff vopts).unsupportedTables n ≠ none := by
      rw [mapGet_unsupportedTables_last]
      cases hl : lastRecorded env vopts n (diff.FilteredTableDiffs .DiffTypeAlter) with
      | none => exact absurd hl hlast
      | some p => simp
    obtain ⟨herr1, hcalls, _⟩ := VerifyDiff_loop env diff vopts he hf
    rw [herr1] at herr
    rw [hcalls]
    obtain ⟨call, hc, hres, hnone⟩ := rediffLoop_err env _ _ _ _ e herr
    refine ⟨call, hc, ?_, hres⟩
    intro hcn
    rw [hcn] at hnone
    exact hget hnone
  · intro p hp
    obtain ⟨pre, post, h1, h2, h3⟩ := lastWith_some _ _ p hp
    refine ⟨pre, post, h1, by simpa using h2, ?_⟩
    intro q hq hq2
    have := h3 q hq
    simp [hq2.1, hq2.2] at this
  · intro p hp
    obtain ⟨pre, post, h1, h2, h3⟩ := lastWith_some _ _ p hp
    refine ⟨pre, post, h1, by simpa using h2, ?_⟩
    intro q hq hq2
    have := h3 q hq
    simp [hq2.1, hq2.2] at this

/-- Witness of C19 (amended): an unsupported diff and a later supported diff of
the same table; the one second diff is made against the `To` table of the later
diff, it fails, and the failure is tolerated. -/
theorem VerifyDiff_shared_name_witness :
    (VerifyDiff (demoEnv [tableNew] [] none) ⟨[alterUnsupported, alterSupportedSecond]⟩
        (demoOpts true)).verifyCalls
      = [⟨"t", some tableNew, tableNewer,
          relaxMods (strictMods (demoEnv [tableNew] [] none) (demoOpts true))⟩] ∧
    (VerifyDiff (demoEnv [tableNew] [] none) ⟨[alterUnsupported, alterSupportedSecond]⟩
        (demoOpts true)).err = none ∧
    (VerifyDiff (demoEnv [tableNew] [] none) ⟨[alterUnsupported, alterSupportedSecond]⟩
        (demoOpts true)).marked = [] ∧
    ((VerifyDiff (demoEnv [tableNew] [] none) ⟨[alterUnsupported, alterSupportedSecond]⟩
        (demoOpts true)).verifyCalls.map (fun call => call.name)).count "t" = 1 :=
  ⟨by decide, by decide, by decide,
    (VerifyDiff_shared_name (demoEnv [tableNew] [] none)
      ⟨[alterUnsupported, alterSupportedSecond]⟩ (demoOpts true) "t").2.2.1
      (by decide) (by decide) (by decide) (by decide)⟩

end Applier
